import Mathlib

/-!
Verification development for the kubervise observe worker
(workers/agentkubervise: main.py, supabase_client.py, api_client.py).

The sink (Supabase tables) is modelled as explicit state: each table is a
list of rows, upsert-by-conflict-key and delete-by-id are pure functions on
that state.  Each sync function threads the state and an oracle
(per-operation) deciding which sink calls raise; a raising call performs no
mutation and is caught exactly where the Python code catches it.
Timestamps are abstract Nat values, surrogate ids are Nat.
-/

/-- Assoc-list lookup, the semantics of a Python dict .get on a map with
unique keys. -/
def alookup {κ ν : Type} [BEq κ] (m : List (κ × ν)) (k : κ) : Option ν :=
  (m.find? (fun e => e.1 == k)).map (fun e => e.2)

/-- Assoc-list insert-or-overwrite, the semantics of a Python dict
assignment: overwrite in place if the key exists, else append. -/
def assocSet {κ ν : Type} [BEq κ] (m : List (κ × ν)) (k : κ) (v : ν) : List (κ × ν) :=
  if m.any (fun e => e.1 == k) then m.map (fun e => if e.1 == k then (k, v) else e)
  else m ++ [(k, v)]

/-- Build a dict from a list of pairs, later entries overriding earlier ones,
the semantics of a Python dict comprehension. -/
def dictOfList {κ ν : Type} [BEq κ] (l : List (κ × ν)) : List (κ × ν) :=
  l.foldl (fun m e => assocSet m e.1 e.2) []

/-- The no-failure sink oracle: no operation raises. -/
def noFail : Nat → Bool := fun _ => false

/-- A collected pod, the dict built by ClusterWatcher.get_pods_raw
(main.py lines 205-237). -/
structure Pod where
  name : String
  ns : String
  status : String
  node : Option String
  pod_ip : Option String
  restart_count : Nat
  created : String
deriving Repr, DecidableEq

/-- A row of the pods table in the sink (columns written by
SupabaseSync.sync_pods, supabase_client.py lines 163-173, plus the
surrogate id used by the deletion branch). -/
structure PodRow where
  id : Nat
  cluster_id : String
  namespace_id : Nat
  name : String
  status : String
  node_name : Option String
  pod_ip : Option String
  restart_count : Nat
  k8s_created_at : String
  updated_at : Nat
deriving Repr, DecidableEq

/-- The pods table, with the fresh-id counter of the store. -/
structure PodsTable where
  rows : List PodRow
  nextId : Nat
deriving Repr, DecidableEq

/-- The (namespace_id, name) pair used as the diff key in sync_pods. -/
def podKey (r : PodRow) : Nat × String := (r.namespace_id, r.name)

/-- The upsert conflict key cluster_id,namespace_id,name of the pods table. -/
def key3 (r : PodRow) : String × Nat × String := (r.cluster_id, r.namespace_id, r.name)

/-- The conflict keys present in a table. -/
def keys3 (t : PodsTable) : List (String × Nat × String) := t.rows.map key3

/-- Write the upsert payload of sync_pods into an existing row: every
column is set, the surrogate id is kept (update-in-place semantics of
on_conflict=cluster_id,namespace_id,name). -/
def applyPod (cid : String) (now : Nat) (nid : Nat) (p : Pod) (r : PodRow) : PodRow :=
  { r with cluster_id := cid, namespace_id := nid, name := p.name,
           status := p.status, node_name := p.node, pod_ip := p.pod_ip,
           restart_count := p.restart_count, k8s_created_at := p.created,
           updated_at := now }

/-- A freshly inserted pod row with surrogate id i. -/
def mkPodRow (cid : String) (now : Nat) (nid : Nat) (p : Pod) (i : Nat) : PodRow :=
  { id := i, cluster_id := cid, namespace_id := nid, name := p.name,
    status := p.status, node_name := p.node, pod_ip := p.pod_ip,
    restart_count := p.restart_count, k8s_created_at := p.created,
    updated_at := now }

/-- Upsert with on_conflict=cluster_id,namespace_id,name: update in place
when a row with the conflict key exists, insert a fresh row otherwise. -/
def upsertPod (cid : String) (now : Nat) (nid : Nat) (p : Pod) (t : PodsTable) : PodsTable :=
  if t.rows.any (fun r => r.cluster_id == cid && r.namespace_id == nid && r.name == p.name) then
    { t with rows := t.rows.map (fun r =>
        if r.cluster_id == cid && r.namespace_id == nid && r.name == p.name then
          applyPod cid now nid p r else r) }
  else
    { rows := t.rows ++ [mkPodRow cid now nid p t.nextId], nextId := t.nextId + 1 }

/-- Delete by surrogate id (the delete().eq("id", pod_id) call). -/
def deleteById (pid : Nat) (t : PodsTable) : PodsTable :=
  { t with rows := t.rows.filter (fun r => !(r.id == pid)) }

/-- State threaded through the upsert loop of sync_pods: the table, the
current_pods key set, the log of upsert calls issued (resolved
namespace_id paired with the pod record), the next sink-operation index,
and whether no operation has raised so far. -/
structure GoSt where
  table : PodsTable
  cur : List (Nat × String)
  log : List (Nat × Pod)
  k : Nat
  ok : Bool
deriving Repr

/-- The upsert loop of sync_pods (supabase_client.py lines 156-173): a pod
whose namespace is not in namespace_ids is skipped; otherwise its key is
added to current_pods and the upsert is issued.  A raising upsert aborts
the loop (the try block wraps the whole loop). -/
def syncPodsGo (o : Nat → Bool) (cid : String) (now : Nat) (nsIds : List (String × Nat)) :
    List Pod → GoSt → GoSt
  | [], s => s
  | p :: ps, s =>
    match alookup nsIds p.ns with
    | none => syncPodsGo o cid now nsIds ps s
    | some nid =>
      if o s.k then { s with cur := s.cur ++ [(nid, p.name)], ok := false }
      else syncPodsGo o cid now nsIds ps
        { table := upsertPod cid now nid p s.table
          cur := s.cur ++ [(nid, p.name)]
          log := s.log ++ [(nid, p)]
          k := s.k + 1
          ok := s.ok }

/-- State threaded through the deletion loop of sync_pods. -/
structure DelSt where
  table : PodsTable
  dl : List Nat
  k : Nat
  ok : Bool
deriving Repr

/-- The deletion loop of sync_pods (lines 176-179): one delete per key in
existing minus current; a raising delete aborts the loop. -/
def syncPodsDel (o : Nat → Bool) :
    List ((Nat × String) × Nat) → DelSt → DelSt
  | [], s => s
  | e :: rest, s =>
    if o s.k then { s with ok := false }
    else syncPodsDel o rest
      { table := deleteById e.2 s.table, dl := s.dl ++ [e.2], k := s.k + 1, ok := s.ok }

/-- Result of one sync_pods call: the table, the upserts issued, the ids
deleted, and the boolean the function returns. -/
structure PodsOut where
  table : PodsTable
  upserts : List (Nat × Pod)
  deletes : List Nat
  ok : Bool
deriving Repr

/-- SupabaseSync.sync_pods (supabase_client.py lines 139-185): read the
existing rows of this cluster into a dict keyed by (namespace_id, name),
upsert each collected pod whose namespace resolves, delete every existing
key absent from current_pods.  Operation 0 is the initial select; any
raising operation is caught by the enclosing try and the function returns
False with the state mutated so far. -/
def syncPods (o : Nat → Bool) (connected : Bool) (cid : String) (now : Nat)
    (pods : List Pod) (nsIds : List (String × Nat)) (t : PodsTable) : PodsOut :=
  if !connected then ⟨t, [], [], false⟩
  else if o 0 then ⟨t, [], [], false⟩
  else
    let existing := dictOfList ((t.rows.filter (fun r => r.cluster_id == cid)).map
      (fun r => (podKey r, r.id)))
    let g := syncPodsGo o cid now nsIds pods ⟨t, [], [], 1, true⟩
    if !g.ok then ⟨g.table, g.log, [], false⟩
    else
      let deleted := existing.filter (fun e => !(g.cur.contains e.1))
      let d := syncPodsDel o deleted ⟨g.table, [], g.k, true⟩
      ⟨d.table, g.log, d.dl, d.ok⟩

/-- The key a collected pod resolves to under the namespace mapping. -/
def resolveKey (nsIds : List (String × Nat)) (p : Pod) : Option (Nat × String) :=
  (alookup nsIds p.ns).map (fun nid => (nid, p.name))

/-- The current_pods key set a fault-free sync_pods run collects. -/
def currentKeys (nsIds : List (String × Nat)) (pods : List Pod) : List (Nat × String) :=
  pods.filterMap (resolveKey nsIds)

/-- The upsert calls a fault-free sync_pods run issues: exactly the pods
whose namespace resolves, in order, paired with the resolved id. -/
def currentPairs (nsIds : List (String × Nat)) (pods : List Pod) : List (Nat × Pod) :=
  pods.filterMap (fun p => (alookup nsIds p.ns).map (fun nid => (nid, p)))

/-- The last pod of the collection resolving to a given key (the record
whose fields the final upsert of that key writes). -/
def lastPodAt (nsIds : List (String × Nat)) : List Pod → (Nat × String) → Option Pod
  | [], _ => none
  | p :: ps, k =>
    match lastPodAt nsIds ps k with
    | some q => some q
    | none => if resolveKey nsIds p = some k then some p else none

/-- Patch one row by the final upsert its key receives, if any. -/
def patchRow (cid : String) (now : Nat) (d : (Nat × String) → Option Pod) (r : PodRow) : PodRow :=
  if r.cluster_id == cid then
    match d (podKey r) with
    | some p => applyPod cid now r.namespace_id p r
    | none => r
  else r

/-- The rows freshly inserted by the upsert loop: one per first occurrence
of a resolved key absent from the given conflict-key set, carrying the
fields of the last pod with that key and sequential ids from i. -/
def newRows (cid : String) (now : Nat) (nsIds : List (String × Nat)) :
    List Pod → List (String × Nat × String) → Nat → List PodRow
  | [], _, _ => []
  | p :: ps, K, i =>
    match resolveKey nsIds p with
    | none => newRows cid now nsIds ps K i
    | some k =>
      if K.contains (cid, k.1, k.2) then newRows cid now nsIds ps K i
      else mkPodRow cid now k.1 ((lastPodAt nsIds ps k).getD p) i ::
        newRows cid now nsIds ps (K ++ [(cid, k.1, k.2)]) (i + 1)

/-- The key set the sink holds for one cluster. -/
def keysFor (cid : String) (t : PodsTable) : List (Nat × String) :=
  (t.rows.filter (fun r => r.cluster_id == cid)).map podKey

/-- Erase the updated_at timestamp of a row. -/
def stripTime (r : PodRow) : PodRow := { r with updated_at := 0 }

/-- The existing_pods dict sync_pods reads at its start. -/
def existingDict (cid : String) (t : PodsTable) : List ((Nat × String) × Nat) :=
  dictOfList ((t.rows.filter (fun r => r.cluster_id == cid)).map
    (fun r => (podKey r, r.id)))

/-- The deleted_pods set of a fault-free sync_pods run: existing keys of
this cluster absent from the current key set, with their row ids. -/
def podsDeleted (cid : String) (nsIds : List (String × Nat)) (pods : List Pod)
    (t : PodsTable) : List ((Nat × String) × Nat) :=
  (existingDict cid t).filter (fun e => !((currentKeys nsIds pods).contains e.1))

/-- Well-formedness the sink guarantees through its constraints: conflict
keys unique (the on_conflict unique constraint), surrogate ids unique (the
primary key), and ids below the fresh-id counter. -/
def PodsWf (t : PodsTable) : Prop :=
  (t.rows.map key3).Nodup ∧ (t.rows.map PodRow.id).Nodup ∧ ∀ r ∈ t.rows, r.id < t.nextId

instance (t : PodsTable) : Decidable (PodsWf t) := by
  unfold PodsWf; infer_instance

/-! ### Namespaces (the scoping-group resolver, supabase_client.py 107-137) -/

/-- A collected namespace, the dict built by get_namespaces_raw. -/
structure NsInput where
  name : String
  status : String
deriving Repr, DecidableEq

/-- A row of the namespaces table. -/
structure NsRow where
  id : Nat
  cluster_id : String
  name : String
  status : String
  updated_at : Nat
deriving Repr, DecidableEq

/-- The namespaces table with its fresh-id counter. -/
structure NsTable where
  rows : List NsRow
  nextId : Nat
deriving Repr, DecidableEq

/-- Upsert with on_conflict=cluster_id,name, returning the id of the row the
store reports back (result.data[0]["id"]). -/
def upsertNs (cid : String) (now : Nat) (n : NsInput) (t : NsTable) : NsTable × Nat :=
  match t.rows.find? (fun r => r.cluster_id == cid && r.name == n.name) with
  | some r =>
    ({ t with rows := t.rows.map (fun r0 =>
        if r0.cluster_id == cid && r0.name == n.name then
          { r0 with status := n.status, updated_at := now } else r0) }, r.id)
  | none =>
    ({ rows := t.rows ++ [⟨t.nextId, cid, n.name, n.status, now⟩], nextId := t.nextId + 1 }, t.nextId)

/-- Outcome of one sink call inside sync_namespaces: it succeeds and
returns data, succeeds with empty data (the `if result.data` guard), or
raises. -/
inductive NsResp where
  | ok
  | okSilent
  | raise
deriving Repr, DecidableEq

/-- The loop of sync_namespaces: upsert each namespace and record its id
in namespace_ids; after the loop, a final select re-reads every
(id, name) of the cluster into the same dict.  Any raising call is caught
by the enclosing try and whatever dict was accumulated is returned. -/
def syncNamespacesGo (o : Nat → NsResp) (cid : String) (now : Nat) :
    List NsInput → NsTable → List (String × Nat) → Nat → NsTable × List (String × Nat)
  | [], t, ids, k =>
    match o k with
    | NsResp.raise => (t, ids)
    | _ =>
      (t, (t.rows.filter (fun r => r.cluster_id == cid)).foldl
        (fun m r => assocSet m r.name r.id) ids)
  | n :: rest, t, ids, k =>
    match o k with
    | NsResp.raise => (t, ids)
    | NsResp.okSilent =>
      let u := upsertNs cid now n t
      syncNamespacesGo o cid now rest u.1 ids (k + 1)
    | NsResp.ok =>
      let u := upsertNs cid now n t
      syncNamespacesGo o cid now rest u.1 (assocSet ids n.name u.2) (k + 1)

/-- SupabaseSync.sync_namespaces (supabase_client.py lines 107-137):
returns the table and the name-to-id mapping; never raises to the caller. -/
def syncNamespaces (o : Nat → NsResp) (connected : Bool) (cid : String) (now : Nat)
    (nss : List NsInput) (t : NsTable) : NsTable × List (String × Nat) :=
  if !connected then (t, [])
  else syncNamespacesGo o cid now nss t [] 0

/-- The fault-free upsert phase of sync_namespaces on a prefix of the
input, without the final re-read: the reference against which a failing
run is compared. -/
def nsUpsertPhase (cid : String) (now : Nat) :
    List NsInput → NsTable → List (String × Nat) → NsTable × List (String × Nat)
  | [], t, ids => (t, ids)
  | n :: rest, t, ids =>
    let u := upsertNs cid now n t
    nsUpsertPhase cid now rest u.1 (assocSet ids n.name u.2)

/-- An oracle whose sink raises exactly at operation j. -/
def failAt (j : Nat) : Nat → NsResp := fun n => if n == j then NsResp.raise else NsResp.ok

/-- All namespace sink calls succeed. -/
def nsOk : Nat → NsResp := fun _ => NsResp.ok

/-- Well-formedness of the namespaces table: the on_conflict key
(cluster_id, name) is unique. -/
def NsWf (t : NsTable) : Prop := (t.rows.map (fun r => (r.cluster_id, r.name))).Nodup

instance (t : NsTable) : Decidable (NsWf t) := by
  unfold NsWf; infer_instance

/-! ### The other child kinds (supabase_client.py 221-391): per-record
upsert keyed by cluster_id,namespace_id,name, records with an unresolved
namespace skipped, no deletion branch.  Each loop runs inside one try, so
a raising upsert aborts the remaining records of that kind. -/

/-- A collected deployment (get_deployments_raw). -/
structure Deployment where
  name : String
  ns : String
  replicas : Nat
  ready_replicas : Nat
  available_replicas : Nat
  strategy : String
  created : String
deriving Repr, DecidableEq

/-- A row of the deployments table (sync_deployments payload). -/
structure DepRow where
  cluster_id : String
  namespace_id : Nat
  name : String
  replicas : Nat
  ready_replicas : Nat
  available_replicas : Nat
  strategy : String
  k8s_created_at : String
  updated_at : Nat
deriving Repr, DecidableEq

def upsertDep (cid : String) (now : Nat) (nid : Nat) (d : Deployment)
    (rows : List DepRow) : List DepRow :=
  let row : DepRow := ⟨cid, nid, d.name, d.replicas, d.ready_replicas,
    d.available_replicas, d.strategy, d.created, now⟩
  if rows.any (fun r => r.cluster_id == cid && r.namespace_id == nid && r.name == d.name) then
    rows.map (fun r =>
      if r.cluster_id == cid && r.namespace_id == nid && r.name == d.name then row else r)
  else rows ++ [row]

/-- SupabaseSync.sync_deployments (lines 221-248). -/
def syncDeploymentsGo (o : Nat → Bool) (cid : String) (now : Nat) (nsIds : List (String × Nat)) :
    List Deployment → List DepRow → List (Nat × Deployment) → Nat →
    List DepRow × List (Nat × Deployment) × Bool
  | [], rows, log, _ => (rows, log, true)
  | d :: ds, rows, log, k =>
    match alookup nsIds d.ns with
    | none => syncDeploymentsGo o cid now nsIds ds rows log k
    | some nid =>
      if o k then (rows, log, false)
      else syncDeploymentsGo o cid now nsIds ds (upsertDep cid now nid d rows)
        (log ++ [(nid, d)]) (k + 1)

def syncDeployments (o : Nat → Bool) (connected : Bool) (cid : String) (now : Nat)
    (ds : List Deployment) (nsIds : List (String × Nat)) (rows : List DepRow) :
    List DepRow × List (Nat × Deployment) × Bool :=
  if !connected then (rows, [], false)
  else syncDeploymentsGo o cid now nsIds ds rows [] 0

/-- A collected statefulset (get_statefulsets_raw). -/
structure StatefulSetIn where
  name : String
  ns : String
  replicas : Nat
  ready_replicas : Nat
  service_name : String
  created : String
deriving Repr, DecidableEq

/-- A row of the statefulsets table (sync_statefulsets payload). -/
structure StsRow where
  cluster_id : String
  namespace_id : Nat
  name : String
  replicas : Nat
  ready_replicas : Nat
  service_name : String
  k8s_created_at : String
  updated_at : Nat
deriving Repr, DecidableEq

def upsertSts (cid : String) (now : Nat) (nid : Nat) (s : StatefulSetIn)
    (rows : List StsRow) : List StsRow :=
  let row : StsRow := ⟨cid, nid, s.name, s.replicas, s.ready_replicas,
    s.service_name, s.created, now⟩
  if rows.any (fun r => r.cluster_id == cid && r.namespace_id == nid && r.name == s.name) then
    rows.map (fun r =>
      if r.cluster_id == cid && r.namespace_id == nid && r.name == s.name then row else r)
  else rows ++ [row]

/-- SupabaseSync.sync_statefulsets (lines 250-276). -/
def syncStatefulsetsGo (o : Nat → Bool) (cid : String) (now : Nat) (nsIds : List (String × Nat)) :
    List StatefulSetIn → List StsRow → List (Nat × StatefulSetIn) → Nat →
    List StsRow × List (Nat × StatefulSetIn) × Bool
  | [], rows, log, _ => (rows, log, true)
  | s :: ss, rows, log, k =>
    match alookup nsIds s.ns with
    | none => syncStatefulsetsGo o cid now nsIds ss rows log k
    | some nid =>
      if o k then (rows, log, false)
      else syncStatefulsetsGo o cid now nsIds ss (upsertSts cid now nid s rows)
        (log ++ [(nid, s)]) (k + 1)

def syncStatefulsets (o : Nat → Bool) (connected : Bool) (cid : String) (now : Nat)
    (ss : List StatefulSetIn) (nsIds : List (String × Nat)) (rows : List StsRow) :
    List StsRow × List (Nat × StatefulSetIn) × Bool :=
  if !connected then (rows, [], false)
  else syncStatefulsetsGo o cid now nsIds ss rows [] 0

/-- A collected daemonset (get_daemonsets_raw). -/
structure DaemonSetIn where
  name : String
  ns : String
  desired_nodes : Nat
  ready_nodes : Nat
  created : String
deriving Repr, DecidableEq

/-- A row of the daemonsets table (sync_daemonsets payload). -/
structure DsRow where
  cluster_id : String
  namespace_id : Nat
  name : String
  desired_nodes : Nat
  ready_nodes : Nat
  k8s_created_at : String
  updated_at : Nat
deriving Repr, DecidableEq

def upsertDs (cid : String) (now : Nat) (nid : Nat) (d : DaemonSetIn)
    (rows : List DsRow) : List DsRow :=
  let row : DsRow := ⟨cid, nid, d.name, d.desired_nodes, d.ready_nodes, d.created, now⟩
  if rows.any (fun r => r.cluster_id == cid && r.namespace_id == nid && r.name == d.name) then
    rows.map (fun r =>
      if r.cluster_id == cid && r.namespace_id == nid && r.name == d.name then row else r)
  else rows ++ [row]

/-- SupabaseSync.sync_daemonsets (lines 278-303). -/
def syncDaemonsetsGo (o : Nat → Bool) (cid : String) (now : Nat) (nsIds : List (String × Nat)) :
    List DaemonSetIn → List DsRow → List (Nat × DaemonSetIn) → Nat →
    List DsRow × List (Nat × DaemonSetIn) × Bool
  | [], rows, log, _ => (rows, log, true)
  | d :: ds, rows, log, k =>
    match alookup nsIds d.ns with
    | none => syncDaemonsetsGo o cid now nsIds ds rows log k
    | some nid =>
      if o k then (rows, log, false)
      else syncDaemonsetsGo o cid now nsIds ds (upsertDs cid now nid d rows)
        (log ++ [(nid, d)]) (k + 1)

def syncDaemonsets (o : Nat → Bool) (connected : Bool) (cid : String) (now : Nat)
    (ds : List DaemonSetIn) (nsIds : List (String × Nat)) (rows : List DsRow) :
    List DsRow × List (Nat × DaemonSetIn) × Bool :=
  if !connected then (rows, [], false)
  else syncDaemonsetsGo o cid now nsIds ds rows [] 0

/-- One entry of a service port list (get_services_raw). -/
structure Port where
  port : Nat
  target_port : String
  protocol : String
  node_port : Option Nat
deriving Repr, DecidableEq

/-- A collected service (get_services_raw). -/
structure ServiceIn where
  name : String
  ns : String
  type : String
  cluster_ip : Option String
  external_ip : Option String
  ports : List Port
  created : String
deriving Repr, DecidableEq

/-- A row of the services table (sync_services payload). -/
structure SvcRow where
  cluster_id : String
  namespace_id : Nat
  name : String
  type : String
  cluster_ip : Option String
  external_ip : Option String
  ports : List Port
  k8s_created_at : String
  updated_at : Nat
deriving Repr, DecidableEq

def upsertSvc (cid : String) (now : Nat) (nid : Nat) (s : ServiceIn)
    (rows : List SvcRow) : List SvcRow :=
  let row : SvcRow := ⟨cid, nid, s.name, s.type, s.cluster_ip, s.external_ip,
    s.ports, s.created, now⟩
  if rows.any (fun r => r.cluster_id == cid && r.namespace_id == nid && r.name == s.name) then
    rows.map (fun r =>
      if r.cluster_id == cid && r.namespace_id == nid && r.name == s.name then row else r)
  else rows ++ [row]

/-- SupabaseSync.sync_services (lines 305-332). -/
def syncServicesGo (o : Nat → Bool) (cid : String) (now : Nat) (nsIds : List (String × Nat)) :
    List ServiceIn → List SvcRow → List (Nat × ServiceIn) → Nat →
    List SvcRow × List (Nat × ServiceIn) × Bool
  | [], rows, log, _ => (rows, log, true)
  | s :: ss, rows, log, k =>
    match alookup nsIds s.ns with
    | none => syncServicesGo o cid now nsIds ss rows log k
    | some nid =>
      if o k then (rows, log, false)
      else syncServicesGo o cid now nsIds ss (upsertSvc cid now nid s rows)
        (log ++ [(nid, s)]) (k + 1)

def syncServices (o : Nat → Bool) (connected : Bool) (cid : String) (now : Nat)
    (ss : List ServiceIn) (nsIds : List (String × Nat)) (rows : List SvcRow) :
    List SvcRow × List (Nat × ServiceIn) × Bool :=
  if !connected then (rows, [], false)
  else syncServicesGo o cid now nsIds ss rows [] 0

/-- A collected ingress (get_ingresses_raw). -/
structure IngressIn where
  name : String
  ns : String
  ingress_class : Option String
  hosts : List String
  tls : Bool
  address : Option String
  created : String
deriving Repr, DecidableEq

/-- A row of the ingresses table (sync_ingresses payload). -/
structure IngRow where
  cluster_id : String
  namespace_id : Nat
  name : String
  ingress_class : Option String
  hosts : List String
  tls : Bool
  address : Option String
  k8s_created_at : String
  updated_at : Nat
deriving Repr, DecidableEq

def upsertIng (cid : String) (now : Nat) (nid : Nat) (g : IngressIn)
    (rows : List IngRow) : List IngRow :=
  let row : IngRow := ⟨cid, nid, g.name, g.ingress_class, g.hosts, g.tls,
    g.address, g.created, now⟩
  if rows.any (fun r => r.cluster_id == cid && r.namespace_id == nid && r.name == g.name) then
    rows.map (fun r =>
      if r.cluster_id == cid && r.namespace_id == nid && r.name == g.name then row else r)
  else rows ++ [row]

/-- SupabaseSync.sync_ingresses (lines 334-361). -/
def syncIngressesGo (o : Nat → Bool) (cid : String) (now : Nat) (nsIds : List (String × Nat)) :
    List IngressIn → List IngRow → List (Nat × IngressIn) → Nat →
    List IngRow × List (Nat × IngressIn) × Bool
  | [], rows, log, _ => (rows, log, true)
  | g :: gs, rows, log, k =>
    match alookup nsIds g.ns with
    | none => syncIngressesGo o cid now nsIds gs rows log k
    | some nid =>
      if o k then (rows, log, false)
      else syncIngressesGo o cid now nsIds gs (upsertIng cid now nid g rows)
        (log ++ [(nid, g)]) (k + 1)

def syncIngresses (o : Nat → Bool) (connected : Bool) (cid : String) (now : Nat)
    (gs : List IngressIn) (nsIds : List (String × Nat)) (rows : List IngRow) :
    List IngRow × List (Nat × IngressIn) × Bool :=
  if !connected then (rows, [], false)
  else syncIngressesGo o cid now nsIds gs rows [] 0

/-- A collected job (get_jobs_raw). -/
structure JobIn where
  name : String
  ns : String
  completions : Nat
  succeeded : Nat
  failed : Nat
  active : Nat
  status : String
  created : String
deriving Repr, DecidableEq

/-- A row of the jobs table (sync_jobs payload). -/
structure JobRow where
  cluster_id : String
  namespace_id : Nat
  name : String
  completions : Nat
  succeeded : Nat
  failed : Nat
  active : Nat
  status : String
  k8s_created_at : String
  updated_at : Nat
deriving Repr, DecidableEq

def upsertJob (cid : String) (now : Nat) (nid : Nat) (j : JobIn)
    (rows : List JobRow) : List JobRow :=
  let row : JobRow := ⟨cid, nid, j.name, j.completions, j.succeeded, j.failed,
    j.active, j.status, j.created, now⟩
  if rows.any (fun r => r.cluster_id == cid && r.namespace_id == nid && r.name == j.name) then
    rows.map (fun r =>
      if r.cluster_id == cid && r.namespace_id == nid && r.name == j.name then row else r)
  else rows ++ [row]

/-- SupabaseSync.sync_jobs (lines 363-391). -/
def syncJobsGo (o : Nat → Bool) (cid : String) (now : Nat) (nsIds : List (String × Nat)) :
    List JobIn → List JobRow → List (Nat × JobIn) → Nat →
    List JobRow × List (Nat × JobIn) × Bool
  | [], rows, log, _ => (rows, log, true)
  | j :: js, rows, log, k =>
    match alookup nsIds j.ns with
    | none => syncJobsGo o cid now nsIds js rows log k
    | some nid =>
      if o k then (rows, log, false)
      else syncJobsGo o cid now nsIds js (upsertJob cid now nid j rows)
        (log ++ [(nid, j)]) (k + 1)

def syncJobs (o : Nat → Bool) (connected : Bool) (cid : String) (now : Nat)
    (js : List JobIn) (nsIds : List (String × Nat)) (rows : List JobRow) :
    List JobRow × List (Nat × JobIn) × Bool :=
  if !connected then (rows, [], false)
  else syncJobsGo o cid now nsIds js rows [] 0

/-! ### Nodes, cluster status, events (supabase_client.py 39-105, 187-219,
393-407) and the api client (api_client.py). -/

/-- A collected node (get_nodes_raw). -/
structure NodeInput where
  name : String
  status : String
  capacity_cpu : String
  capacity_memory : String
  allocatable_cpu : String
  allocatable_memory : String
  kubernetes_version : Option String
  os_image : Option String
  container_runtime : Option String
deriving Repr, DecidableEq

/-- A row of the nodes table (sync_nodes payload). -/
structure NodeRow where
  cluster_id : String
  name : String
  status : String
  capacity_cpu : String
  capacity_memory : String
  allocatable_cpu : String
  allocatable_memory : String
  kubernetes_version : Option String
  os_image : Option String
  container_runtime : Option String
  updated_at : Nat
deriving Repr, DecidableEq

def upsertNode (cid : String) (now : Nat) (n : NodeInput) (rows : List NodeRow) :
    List NodeRow :=
  let row : NodeRow := ⟨cid, n.name, n.status, n.capacity_cpu, n.capacity_memory,
    n.allocatable_cpu, n.allocatable_memory, n.kubernetes_version, n.os_image,
    n.container_runtime, now⟩
  if rows.any (fun r => r.cluster_id == cid && r.name == n.name) then
    rows.map (fun r => if r.cluster_id == cid && r.name == n.name then row else r)
  else rows ++ [row]

/-- SupabaseSync.sync_nodes (lines 79-105): upsert on cluster_id,name, no
deletion branch, one try around the whole loop. -/
def syncNodesGo (o : Nat → Bool) (cid : String) (now : Nat) :
    List NodeInput → List NodeRow → Nat → List NodeRow × Bool
  | [], rows, _ => (rows, true)
  | n :: ns, rows, k =>
    if o k then (rows, false)
    else syncNodesGo o cid now ns (upsertNode cid now n rows) (k + 1)

def syncNodes (o : Nat → Bool) (connected : Bool) (cid : String) (now : Nat)
    (ns : List NodeInput) (rows : List NodeRow) : List NodeRow × Bool :=
  if !connected then (rows, false)
  else syncNodesGo o cid now ns rows 0

/-- A connection_status value written to the clusters table. -/
inductive StatusVal where
  | connected
  | disconnected
deriving Repr, DecidableEq, BEq

/-- Number of disconnected-status writes in a write log. -/
def countDisc (l : List StatusVal) : Nat :=
  (l.filter (fun s => s == StatusVal.disconnected)).length

/-- A Kubernetes event as consumed by watch_events (main.py 694-733). -/
structure K8sEvent where
  etype : Option String
  reason : Option String
  message : Option String
  involved_kind : String
  involved_name : String
  involved_namespace : Option String
  source_component : Option String
deriving Repr, DecidableEq

/-- A row of the cluster_events table, the insert payload of
SupabaseSync.add_event (supabase_client.py 187-219). -/
structure EventRecord where
  cluster_id : String
  event_type : String
  reason : String
  message : String
  involved_kind : String
  involved_name : String
  involved_namespace : Option String
  source_component : Option String
  first_seen_at : Nat
  last_seen_at : Nat
deriving Repr, DecidableEq

/-- The EventRecord watch_events builds for one received event (the
argument defaults at main.py 720-728 and the insert at 202-213). -/
def mkEventRecord (cid : String) (now : Nat) (e : K8sEvent) : EventRecord :=
  { cluster_id := cid, event_type := e.etype.getD "Normal",
    reason := e.reason.getD "", message := e.message.getD "",
    involved_kind := e.involved_kind, involved_name := e.involved_name,
    involved_namespace := e.involved_namespace,
    source_component := e.source_component,
    first_seen_at := now, last_seen_at := now }

/-- The whole sink state of the DirectStore (Supabase) variant, plus a log
of every connection_status write issued to the clusters table. -/
structure SupabaseState where
  currentStatus : Option StatusVal
  statusWrites : List StatusVal
  statusSnapshots : List (Nat × Nat × Nat)
  nodes : List NodeRow
  namespacesT : NsTable
  pods : PodsTable
  deployments : List DepRow
  statefulsets : List StsRow
  daemonsets : List DsRow
  services : List SvcRow
  ingresses : List IngRow
  jobs : List JobRow
  events : List EventRecord
deriving Repr

/-- SupabaseSync.add_event: a keyless insert into cluster_events; the
table keeps duplicates. -/
def addEvent (o : Bool) (connected : Bool) (cid : String) (now : Nat) (e : K8sEvent)
    (tbl : List EventRecord) : List EventRecord × Bool :=
  if !connected then (tbl, false)
  else if o then (tbl, false)
  else (tbl ++ [mkEventRecord cid now e], true)

/-- The sink variant selected once at process start (main.py 19-24). -/
inductive SyncMode where
  | api
  | supabase
deriving Repr, DecidableEq, BEq

/-- main.py 19-24: the api variant is selected exactly when both the api
url and the agent token are configured. -/
def selectSyncMode (apiUrlSet agentTokenSet : Bool) : SyncMode :=
  if apiUrlSet && agentTokenSet then SyncMode.api else SyncMode.supabase

/-- ClusterWatcher.watch_events (main.py 694-733), restricted to its sink
effect: each received event is forwarded via add_event only when the
process runs in supabase mode and the sync client is connected. -/
def watchEventsSink (mode : SyncMode) (connected : Bool) (cid : String) (now : Nat) :
    List K8sEvent → List EventRecord → List EventRecord
  | [], tbl => tbl
  | e :: rest, tbl =>
    if mode == SyncMode.supabase && connected then
      watchEventsSink mode connected cid now rest (addEvent false connected cid now e tbl).1
    else watchEventsSink mode connected cid now rest tbl

/-- The result of listing pods against the inventory source. -/
inductive ListResult where
  | ok (pods : List Pod)
  | apiError
deriving Repr

/-- ClusterWatcher.get_pods_raw (main.py 205-237): not connected gives [],
and an ApiException from the listing call is caught and gives [] as well. -/
def getPodsRaw (connected : Bool) (r : ListResult) : List Pod :=
  if !connected then []
  else
    match r with
    | ListResult.ok pods => pods
    | ListResult.apiError => []

/-- SupabaseSync.update_cluster_status (supabase_client.py 39-77):
operation 0 updates clusters.connection_status to connected, operation 1
inserts a cluster_status snapshot; a raise is caught and returns False. -/
def updateClusterStatus (o : Nat → Bool) (connected : Bool)
    (nodeCount podCount nsCount : Nat) (st : SupabaseState) : SupabaseState × Bool :=
  if !connected then (st, false)
  else if o 0 then (st, false)
  else
    let st1 := { st with currentStatus := some StatusVal.connected,
                         statusWrites := st.statusWrites ++ [StatusVal.connected] }
    if o 1 then (st1, false)
    else ({ st1 with statusSnapshots := st1.statusSnapshots ++ [(nodeCount, podCount, nsCount)] },
      true)

/-- SupabaseSync.set_disconnected (supabase_client.py 393-407): one update
of clusters.connection_status to disconnected; a raise is caught and
returns False. -/
def setDisconnectedSb (o : Bool) (connected : Bool) (st : SupabaseState) :
    SupabaseState × Bool :=
  if !connected then (st, false)
  else if o then (st, false)
  else ({ st with currentStatus := some StatusVal.disconnected,
                  statusWrites := st.statusWrites ++ [StatusVal.disconnected] }, true)

/-- APISync.set_disconnected (api_client.py 114-118): performs no sink
operation at all; the remote side infers disconnection from the absence
of snapshots.  Applied to a status-write log it leaves it unchanged. -/
def setDisconnectedApiWrites (l : List StatusVal) : List StatusVal := l

/-- The connection_status writes the shutdown path of lifespan
(main.py 870-894) performs: both variants call set_disconnected exactly
once; only the supabase variant issues a sink write for it. -/
def lifespanShutdownWrites (mode : SyncMode) (connected : Bool) (o : Bool)
    (st : SupabaseState) : List StatusVal :=
  match mode with
  | SyncMode.supabase => ((setDisconnectedSb o connected st).1).statusWrites
  | SyncMode.api => setDisconnectedApiWrites st.statusWrites

/-- One collected inventory snapshot, the nine lists sync_data gathers
(main.py 748-756). -/
structure Collections where
  nodes : List NodeInput
  pods : List Pod
  namespaces : List NsInput
  deployments : List Deployment
  statefulsets : List StatefulSetIn
  daemonsets : List DaemonSetIn
  services : List ServiceIn
  ingresses : List IngressIn
  jobs : List JobIn
deriving Repr

/-- One oracle per kind of sink call inside a supabase-mode cycle. -/
structure TickOracles where
  status : Nat → Bool
  nodes : Nat → Bool
  nss : Nat → NsResp
  pods : Nat → Bool
  deps : Nat → Bool
  stss : Nat → Bool
  dss : Nat → Bool
  svcs : Nat → Bool
  ings : Nat → Bool
  jobs : Nat → Bool

/-- The all-succeed oracle bundle. -/
def noFailTick : TickOracles :=
  ⟨noFail, noFail, nsOk, noFail, noFail, noFail, noFail, noFail, noFail, noFail⟩

/-- One supabase-mode reconciliation cycle, the legacy branch of
ClusterWatcher.sync_data (main.py 806-829): cluster status, nodes,
namespaces (producing namespace_ids), then every child kind in order.
Each sync call catches its own failures and returns a boolean, so each
call is made regardless of the outcome of the previous ones. -/
def tickSb (os : TickOracles) (connected : Bool) (cid : String) (now : Nat)
    (c : Collections) (st : SupabaseState) : SupabaseState :=
  let st1 := (updateClusterStatus os.status connected
    c.nodes.length c.pods.length c.namespaces.length st).1
  let st2 := { st1 with nodes := (syncNodes os.nodes connected cid now c.nodes st1.nodes).1 }
  let nsR := syncNamespaces os.nss connected cid now c.namespaces st2.namespacesT
  let st3 := { st2 with namespacesT := nsR.1 }
  let nsIds := nsR.2
  let st4 := { st3 with pods :=
    (syncPods os.pods connected cid now c.pods nsIds st3.pods).table }
  let st5 := { st4 with deployments :=
    (syncDeployments os.deps connected cid now c.deployments nsIds st4.deployments).1 }
  let st6 := { st5 with statefulsets :=
    (syncStatefulsets os.stss connected cid now c.statefulsets nsIds st5.statefulsets).1 }
  let st7 := { st6 with daemonsets :=
    (syncDaemonsets os.dss connected cid now c.daemonsets nsIds st6.daemonsets).1 }
  let st8 := { st7 with services :=
    (syncServices os.svcs connected cid now c.services nsIds st7.services).1 }
  let st9 := { st8 with ingresses :=
    (syncIngresses os.ings connected cid now c.ingresses nsIds st8.ingresses).1 }
  { st9 with jobs := (syncJobs os.jobs connected cid now c.jobs nsIds st9.jobs).1 }

/-- The response the snapshot POST of the api variant receives. -/
inductive HttpResp where
  | status (code : Nat)
  | timeoutExc
  | otherExc
deriving Repr, DecidableEq

/-- APISync.sync_snapshot (api_client.py 52-97), reduced to its success
criterion: the function returns True exactly when the POST returned and
response.status_code == 200; a timeout or any other exception is caught
and gives False. -/
def syncSnapshot (connected hasClient : Bool) (resp : HttpResp) : Bool :=
  if !connected || !hasClient then false
  else
    match resp with
    | HttpResp.status code => code == 200
    | HttpResp.timeoutExc => false
    | HttpResp.otherExc => false

/-- An empty DirectStore sink. -/
def emptyState : SupabaseState :=
  ⟨none, [], [], [], ⟨[], 0⟩, ⟨[], 0⟩, [], [], [], [], [], [], []⟩

/-! ### Concrete instances used by witnesses and counterexamples. -/

def cNsIds : List (String × Nat) := [("default", 1)]

def cPod1 : Pod := ⟨"p1", "default", "Running", some "n1", none, 0, "t1"⟩

def cPod2 : Pod := ⟨"p2", "default", "Pending", none, none, 1, "t2"⟩

def cPodX : Pod := ⟨"px", "missing", "Running", none, none, 0, "t3"⟩

def cRowP1 : PodRow := ⟨0, "c", 1, "p1", "Running", none, none, 0, "t0", 0⟩

def cRowStale : PodRow := ⟨0, "c", 1, "stale", "Running", none, none, 0, "t0", 0⟩

def cRowPx : PodRow := ⟨0, "c", 1, "px", "Running", none, none, 0, "t0", 0⟩

def cT0 : PodsTable := ⟨[cRowP1], 1⟩

def cTStale : PodsTable := ⟨[cRowStale], 1⟩

def cTPx : PodsTable := ⟨[cRowPx], 1⟩

def cTEmpty : PodsTable := ⟨[], 0⟩

def cNs1 : NsInput := ⟨"default", "Active"⟩

def cNsT : NsTable := ⟨[⟨7, "c", "other", "Active", 0⟩], 8⟩

def cDep : Deployment := ⟨"d1", "missing", 1, 1, 1, "RollingUpdate", "t"⟩

def cSts : StatefulSetIn := ⟨"s1", "missing", 1, 1, "svc", "t"⟩

def cDs : DaemonSetIn := ⟨"ds1", "missing", 1, 1, "t"⟩

def cSvc : ServiceIn := ⟨"svc1", "missing", "ClusterIP", some "10.0.0.1", none, [], "t"⟩

def cIng : IngressIn := ⟨"ing1", "missing", some "nginx", ["h"], false, none, "t"⟩

def cJob : JobIn := ⟨"j1", "missing", 1, 0, 0, 1, "Running", "t"⟩

def cEvent : K8sEvent :=
  ⟨some "Warning", some "Killing", some "oom", "Pod", "p1", some "default", some "kubelet"⟩
/-! ### Lemmas: the upsert loop of sync_pods as patch-existing plus
append-new. -/

lemma key3_eq_iff (r : PodRow) (cid : String) (nid : Nat) (nm : String) :
    (r.cluster_id == cid && r.namespace_id == nid && r.name == nm) = true ↔
    key3 r = (cid, nid, nm) := by
  simp [key3, Prod.ext_iff, and_assoc]

lemma any_key3 (t : PodsTable) (cid : String) (nid : Nat) (nm : String) :
    (t.rows.any (fun r => r.cluster_id == cid && r.namespace_id == nid && r.name == nm)) = true ↔
    (cid, nid, nm) ∈ keys3 t := by
  simp only [List.any_eq_true, keys3, List.mem_map]
  constructor
  · rintro ⟨r, hr, hc⟩
    exact ⟨r, hr, (key3_eq_iff r cid nid nm).1 hc⟩
  · rintro ⟨r, hr, hc⟩
    exact ⟨r, hr, (key3_eq_iff r cid nid nm).2 hc⟩

lemma contains_iff_mem {α : Type} [BEq α] [LawfulBEq α] (l : List α) (a : α) :
    l.contains a = true ↔ a ∈ l := by
  simp [List.contains_eq_any_beq, List.any_eq_true]

lemma key3_applyPod (cid : String) (now : Nat) (nid : Nat) (p : Pod) (r : PodRow) :
    key3 (applyPod cid now nid p r) = (cid, nid, p.name) := rfl

lemma id_applyPod (cid : String) (now : Nat) (nid : Nat) (p : Pod) (r : PodRow) :
    (applyPod cid now nid p r).id = r.id := rfl

lemma applyPod_applyPod (cid : String) (now now' : Nat) (nid nid' : Nat) (q p : Pod)
    (r : PodRow) :
    applyPod cid now nid q (applyPod cid now' nid' p r) = applyPod cid now nid q r := rfl

lemma applyPod_mkPodRow (cid : String) (now now' : Nat) (nid : Nat) (q p : Pod) (i : Nat) :
    applyPod cid now nid q (mkPodRow cid now' nid p i) = mkPodRow cid now nid q i := rfl

lemma resolveKey_some (nsIds : List (String × Nat)) (p : Pod) (k : Nat × String)
    (h : resolveKey nsIds p = some k) :
    alookup nsIds p.ns = some k.1 ∧ p.name = k.2 := by
  unfold resolveKey at h
  cases hl : alookup nsIds p.ns with
  | none => simp [hl] at h
  | some nid =>
    simp [hl] at h
    exact ⟨by simp [hl, ← h], by simp [← h]⟩

lemma lastPodAt_cons (nsIds : List (String × Nat)) (p : Pod) (ps : List Pod)
    (k : Nat × String) :
    lastPodAt nsIds (p :: ps) k =
      match lastPodAt nsIds ps k with
      | some q => some q
      | none => if resolveKey nsIds p = some k then some p else none := rfl

lemma lastPodAt_resolves (nsIds : List (String × Nat)) (pods : List Pod) (k : Nat × String)
    (p : Pod) (h : lastPodAt nsIds pods k = some p) : resolveKey nsIds p = some k := by
  induction pods with
  | nil => simp [lastPodAt] at h
  | cons q ps ih =>
    rw [lastPodAt_cons] at h
    cases hl : lastPodAt nsIds ps k with
    | some q' =>
      rw [hl] at h
      simp at h
      rw [h] at hl
      exact ih hl
    | none =>
      rw [hl] at h
      by_cases hq : resolveKey nsIds q = some k
      · simp [hq] at h
        rw [← h]
        exact hq
      · simp [hq] at h

lemma lastPodAt_cons_unresolved (nsIds : List (String × Nat)) (p : Pod) (ps : List Pod)
    (k : Nat × String) (h : resolveKey nsIds p = none) :
    lastPodAt nsIds (p :: ps) k = lastPodAt nsIds ps k := by
  rw [lastPodAt_cons]
  cases hl : lastPodAt nsIds ps k with
  | some q => rfl
  | none => simp [h]

lemma lastPodAt_cons_ne (nsIds : List (String × Nat)) (p : Pod) (ps : List Pod)
    (k k0 : Nat × String) (h : resolveKey nsIds p = some k0) (hne : k ≠ k0) :
    lastPodAt nsIds (p :: ps) k = lastPodAt nsIds ps k := by
  rw [lastPodAt_cons]
  cases hl : lastPodAt nsIds ps k with
  | some q => rfl
  | none =>
    have hc : resolveKey nsIds p ≠ some k := by
      rw [h]
      intro hcc
      injection hcc with hkk
      exact hne hkk.symm
    simp [hc]

lemma lastPodAt_cons_self (nsIds : List (String × Nat)) (p : Pod) (ps : List Pod)
    (k : Nat × String) (h : resolveKey nsIds p = some k) :
    lastPodAt nsIds (p :: ps) k = some ((lastPodAt nsIds ps k).getD p) := by
  rw [lastPodAt_cons]
  cases hl : lastPodAt nsIds ps k with
  | some q => simp
  | none => simp [h]

lemma cluster_applyPod (cid : String) (now : Nat) (nid : Nat) (p : Pod) (r : PodRow) :
    (applyPod cid now nid p r).cluster_id = cid := rfl

lemma nsid_applyPod (cid : String) (now : Nat) (nid : Nat) (p : Pod) (r : PodRow) :
    (applyPod cid now nid p r).namespace_id = nid := rfl

lemma podKey_applyPod (cid : String) (now : Nat) (nid : Nat) (p : Pod) (r : PodRow) :
    podKey (applyPod cid now nid p r) = (nid, p.name) := rfl

lemma patchRow_nil (cid : String) (now : Nat) (nsIds : List (String × Nat)) (r : PodRow) :
    patchRow cid now (lastPodAt nsIds []) r = r := by
  unfold patchRow
  split <;> rfl

lemma patch_cons_unresolved (cid : String) (now : Nat) (nsIds : List (String × Nat))
    (p : Pod) (ps : List Pod) (r : PodRow) (h : resolveKey nsIds p = none) :
    patchRow cid now (lastPodAt nsIds (p :: ps)) r = patchRow cid now (lastPodAt nsIds ps) r := by
  unfold patchRow
  rw [lastPodAt_cons_unresolved nsIds p ps (podKey r) h]

lemma patch_writeIf_ne (cid : String) (now : Nat) (nid : Nat) (p : Pod)
    (nsIds : List (String × Nat)) (ps : List Pod) (r : PodRow)
    (h : alookup nsIds p.ns = some nid)
    (hc : (r.cluster_id == cid && r.namespace_id == nid && r.name == p.name) = false) :
    patchRow cid now (lastPodAt nsIds ps) r = patchRow cid now (lastPodAt nsIds (p :: ps)) r := by
  have hres : resolveKey nsIds p = some (nid, p.name) := by simp [resolveKey, h]
  unfold patchRow
  by_cases hcl : (r.cluster_id == cid) = true
  · have hkne : podKey r ≠ (nid, p.name) := by
      intro hk
      have h2 : r.namespace_id = nid := congrArg Prod.fst hk
      have h3 : r.name = p.name := congrArg Prod.snd hk
      rw [hcl, h2, h3] at hc
      simp at hc
    rw [lastPodAt_cons_ne nsIds p ps (podKey r) (nid, p.name) hres hkne]
  · simp at hcl
    simp [hcl]

lemma patch_writeIf_eq (cid : String) (now : Nat) (nid : Nat) (p : Pod)
    (nsIds : List (String × Nat)) (ps : List Pod) (r : PodRow)
    (h : alookup nsIds p.ns = some nid)
    (hc : (r.cluster_id == cid && r.namespace_id == nid && r.name == p.name) = true) :
    patchRow cid now (lastPodAt nsIds ps) (applyPod cid now nid p r) =
      patchRow cid now (lastPodAt nsIds (p :: ps)) r := by
  have hres : resolveKey nsIds p = some (nid, p.name) := by simp [resolveKey, h]
  obtain ⟨h1, h2, h3⟩ : r.cluster_id = cid ∧ r.namespace_id = nid ∧ r.name = p.name := by
    simpa [key3, Prod.ext_iff, and_assoc] using (key3_eq_iff r cid nid p.name).1 hc
  have hpk2 : podKey r = (nid, p.name) := by simp [podKey, h2, h3]
  unfold patchRow
  rw [cluster_applyPod, podKey_applyPod, nsid_applyPod, h1, hpk2,
    lastPodAt_cons_self nsIds p ps (nid, p.name) hres]
  simp only [beq_self_eq_true, if_pos]
  cases hl : lastPodAt nsIds ps (nid, p.name) with
  | some q => simp [applyPod_applyPod, h2]
  | none => simp [h2]

lemma patch_mkPodRow (cid : String) (now : Nat) (nid : Nat) (p : Pod)
    (nsIds : List (String × Nat)) (ps : List Pod) (i : Nat) :
    patchRow cid now (lastPodAt nsIds ps) (mkPodRow cid now nid p i) =
      mkPodRow cid now nid ((lastPodAt nsIds ps (nid, p.name)).getD p) i := by
  have hcl : (mkPodRow cid now nid p i).cluster_id = cid := rfl
  have hpk : podKey (mkPodRow cid now nid p i) = (nid, p.name) := rfl
  have hns : (mkPodRow cid now nid p i).namespace_id = nid := rfl
  unfold patchRow
  rw [hcl, hpk, hns]
  simp only [beq_self_eq_true, if_pos]
  cases hl : lastPodAt nsIds ps (nid, p.name) with
  | some q => simp [applyPod_mkPodRow]
  | none => simp

lemma syncPodsGo_cons (o : Nat → Bool) (cid : String) (now : Nat)
    (nsIds : List (String × Nat)) (p : Pod) (ps : List Pod) (s : GoSt) :
    syncPodsGo o cid now nsIds (p :: ps) s =
      match alookup nsIds p.ns with
      | none => syncPodsGo o cid now nsIds ps s
      | some nid =>
        if o s.k then { s with cur := s.cur ++ [(nid, p.name)], ok := false }
        else syncPodsGo o cid now nsIds ps
          { table := upsertPod cid now nid p s.table
            cur := s.cur ++ [(nid, p.name)]
            log := s.log ++ [(nid, p)]
            k := s.k + 1
            ok := s.ok } := rfl

lemma newRows_cons (cid : String) (now : Nat) (nsIds : List (String × Nat))
    (p : Pod) (ps : List Pod) (K : List (String × Nat × String)) (i : Nat) :
    newRows cid now nsIds (p :: ps) K i =
      match resolveKey nsIds p with
      | none => newRows cid now nsIds ps K i
      | some k =>
        if K.contains (cid, k.1, k.2) then newRows cid now nsIds ps K i
        else mkPodRow cid now k.1 ((lastPodAt nsIds ps k).getD p) i ::
          newRows cid now nsIds ps (K ++ [(cid, k.1, k.2)]) (i + 1) := rfl

lemma currentKeys_cons_none (nsIds : List (String × Nat)) (p : Pod) (ps : List Pod)
    (h : resolveKey nsIds p = none) :
    currentKeys nsIds (p :: ps) = currentKeys nsIds ps := by
  simp [currentKeys, List.filterMap_cons, h]

lemma currentKeys_cons_some (nsIds : List (String × Nat)) (p : Pod) (ps : List Pod)
    (k : Nat × String) (h : resolveKey nsIds p = some k) :
    currentKeys nsIds (p :: ps) = k :: currentKeys nsIds ps := by
  simp [currentKeys, List.filterMap_cons, h]

lemma currentPairs_cons_none (nsIds : List (String × Nat)) (p : Pod) (ps : List Pod)
    (h : alookup nsIds p.ns = none) :
    currentPairs nsIds (p :: ps) = currentPairs nsIds ps := by
  simp [currentPairs, List.filterMap_cons, h]

lemma currentPairs_cons_some (nsIds : List (String × Nat)) (p : Pod) (ps : List Pod)
    (nid : Nat) (h : alookup nsIds p.ns = some nid) :
    currentPairs nsIds (p :: ps) = (nid, p) :: currentPairs nsIds ps := by
  simp [currentPairs, List.filterMap_cons, h]

lemma upsertPod_pos (cid : String) (now : Nat) (nid : Nat) (p : Pod) (t : PodsTable)
    (h : (cid, nid, p.name) ∈ keys3 t) :
    upsertPod cid now nid p t =
      { t with rows := t.rows.map (fun r =>
          if r.cluster_id == cid && r.namespace_id == nid && r.name == p.name then
            applyPod cid now nid p r else r) } := by
  unfold upsertPod
  rw [if_pos ((any_key3 t cid nid p.name).2 h)]

lemma upsertPod_neg (cid : String) (now : Nat) (nid : Nat) (p : Pod) (t : PodsTable)
    (h : (cid, nid, p.name) ∉ keys3 t) :
    upsertPod cid now nid p t =
      ⟨t.rows ++ [mkPodRow cid now nid p t.nextId], t.nextId + 1⟩ := by
  unfold upsertPod
  rw [if_neg (fun hc => h ((any_key3 t cid nid p.name).1 hc))]

lemma keys3_writeIf (cid : String) (now : Nat) (nid : Nat) (p : Pod) (t : PodsTable) :
    keys3 { t with rows := t.rows.map (fun r =>
        if r.cluster_id == cid && r.namespace_id == nid && r.name == p.name then
          applyPod cid now nid p r else r) } = keys3 t := by
  show (t.rows.map _).map key3 = t.rows.map key3
  rw [List.map_map]
  apply List.map_congr_left
  intro r _
  by_cases hc : (r.cluster_id == cid && r.namespace_id == nid && r.name == p.name) = true
  · simp only [Function.comp_apply, hc, if_pos]
    rw [key3_applyPod, (key3_eq_iff r cid nid p.name).1 hc]
  · have hk : ¬ ((r.cluster_id = cid ∧ r.namespace_id = nid) ∧ r.name = p.name) := by
      intro hp
      have hcc : (r.cluster_id == cid && r.namespace_id == nid && r.name == p.name) = true := by
        simp [hp.1.1, hp.1.2, hp.2]
      rw [hcc] at hc
      simp at hc
    simp [Function.comp_apply, hk]

/-- Closed form of the fault-free upsert loop of sync_pods: existing rows
are patched in place by the last upsert their conflict key receives, and
one fresh row per first occurrence of a new key is appended, with
sequential ids. -/
lemma syncPodsGo_noFail (cid : String) (now : Nat) (nsIds : List (String × Nat)) :
    ∀ (pods : List Pod) (s : GoSt), s.ok = true →
    syncPodsGo noFail cid now nsIds pods s =
      { table := ⟨s.table.rows.map (patchRow cid now (lastPodAt nsIds pods)) ++
          newRows cid now nsIds pods (keys3 s.table) s.table.nextId,
          s.table.nextId + (newRows cid now nsIds pods (keys3 s.table) s.table.nextId).length⟩,
        cur := s.cur ++ currentKeys nsIds pods,
        log := s.log ++ currentPairs nsIds pods,
        k := s.k + (currentPairs nsIds pods).length,
        ok := true } := by
  intro pods
  induction pods with
  | nil =>
    intro s hok
    obtain ⟨⟨rows, nid0⟩, cur, log, k, ok⟩ := s
    simp only at hok
    subst hok
    have hmap : rows.map (patchRow cid now (lastPodAt nsIds [])) = rows := by
      have : patchRow cid now (lastPodAt nsIds []) = id :=
        funext (fun r => patchRow_nil cid now nsIds r)
      rw [this, List.map_id]
    simp [syncPodsGo, hmap, newRows, currentKeys, currentPairs]
  | cons p ps ih =>
    intro s hok
    rw [syncPodsGo_cons]
    cases hres : alookup nsIds p.ns with
    | none =>
      have hrk : resolveKey nsIds p = none := by simp [resolveKey, hres]
      rw [ih s hok]
      have hpatch : s.table.rows.map (patchRow cid now (lastPodAt nsIds ps)) =
          s.table.rows.map (patchRow cid now (lastPodAt nsIds (p :: ps))) := by
        apply List.map_congr_left
        intro r _
        exact (patch_cons_unresolved cid now nsIds p ps r hrk).symm
      rw [hpatch, newRows_cons, currentKeys_cons_none nsIds p ps hrk,
        currentPairs_cons_none nsIds p ps hres]
      simp [hrk]
    | some nid =>
      have hrk : resolveKey nsIds p = some (nid, p.name) := by simp [resolveKey, hres]
      have hnf : noFail s.k = false := rfl
      rw [hnf]
      simp only [Bool.false_eq_true, if_false]
      rw [ih _ (by simpa using hok)]
      by_cases hmem : (cid, nid, p.name) ∈ keys3 s.table
      · -- the conflict key already exists: in-place update
        have hcont : (keys3 s.table).contains (cid, nid, p.name) = true :=
          (contains_iff_mem (keys3 s.table) (cid, nid, p.name)).2 hmem
        rw [upsertPod_pos cid now nid p s.table hmem]
        rw [keys3_writeIf]
        have hrows : (s.table.rows.map (fun r =>
            if r.cluster_id == cid && r.namespace_id == nid && r.name == p.name then
              applyPod cid now nid p r else r)).map (patchRow cid now (lastPodAt nsIds ps)) =
            s.table.rows.map (patchRow cid now (lastPodAt nsIds (p :: ps))) := by
          rw [List.map_map]
          apply List.map_congr_left
          intro r _
          by_cases hc : (r.cluster_id == cid && r.namespace_id == nid && r.name == p.name) = true
          · simp only [Function.comp_apply, hc, if_pos]
            exact patch_writeIf_eq cid now nid p nsIds ps r hres hc
          · simp only [Bool.not_eq_true] at hc
            simp only [Function.comp_apply, hc, Bool.false_eq_true, if_false]
            exact patch_writeIf_ne cid now nid p nsIds ps r hres hc
        rw [hrows, newRows_cons, currentKeys_cons_some nsIds p ps (nid, p.name) hrk,
          currentPairs_cons_some nsIds p ps nid hres]
        simp [hrk, hcont, hmem, List.append_assoc, hok]
        omega
      · -- fresh conflict key: append
        have hcont : (keys3 s.table).contains (cid, nid, p.name) = false := by
          rw [← Bool.not_eq_true]
          intro hc
          exact hmem ((contains_iff_mem (keys3 s.table) (cid, nid, p.name)).1 hc)
        rw [upsertPod_neg cid now nid p s.table hmem]
        have hkeys : keys3 (⟨s.table.rows ++ [mkPodRow cid now nid p s.table.nextId],
            s.table.nextId + 1⟩ : PodsTable) = keys3 s.table ++ [(cid, nid, p.name)] := by
          simp [keys3, key3, mkPodRow]
        rw [hkeys]
        have hrows : (s.table.rows ++ [mkPodRow cid now nid p s.table.nextId]).map
            (patchRow cid now (lastPodAt nsIds ps)) =
            s.table.rows.map (patchRow cid now (lastPodAt nsIds (p :: ps))) ++
            [mkPodRow cid now nid ((lastPodAt nsIds ps (nid, p.name)).getD p) s.table.nextId] := by
          rw [List.map_append]
          congr 1
          · apply List.map_congr_left
            intro r hr
            have hc : (r.cluster_id == cid && r.namespace_id == nid && r.name == p.name) = false := by
              rw [← Bool.not_eq_true]
              intro hct
              exact hmem ((key3_eq_iff r cid nid p.name).1 hct ▸ List.mem_map_of_mem key3 hr)
            exact patch_writeIf_ne cid now nid p nsIds ps r hres hc
          · simp [patch_mkPodRow]
        rw [hrows, newRows_cons, currentKeys_cons_some nsIds p ps (nid, p.name) hrk,
          currentPairs_cons_some nsIds p ps nid hres]
        simp [hrk, hcont, hmem, List.append_assoc, hok]
        omega

lemma syncPodsDel_noFail :
    ∀ (l : List ((Nat × String) × Nat)) (s : DelSt), s.ok = true →
    syncPodsDel noFail l s =
      { table := ⟨s.table.rows.filter (fun r => l.all (fun e => !(r.id == e.2))),
          s.table.nextId⟩,
        dl := s.dl ++ l.map (fun e => e.2),
        k := s.k + l.length,
        ok := true } := by
  intro l
  induction l with
  | nil =>
    intro s hok
    obtain ⟨⟨rows, nid0⟩, dl, k, ok⟩ := s
    simp only at hok
    subst hok
    simp [syncPodsDel]
  | cons e rest ih =>
    intro s hok
    show syncPodsDel noFail rest _ = _
    rw [ih _ (by simpa using hok)]
    have hrows : (deleteById e.2 s.table).rows.filter
        (fun r => rest.all (fun e => !(r.id == e.2))) =
        s.table.rows.filter (fun r => (e :: rest).all (fun e => !(r.id == e.2))) := by
      show (s.table.rows.filter _).filter _ = _
      rw [List.filter_filter]
      apply List.filter_congr
      intro a _
      rw [List.all_cons, Bool.and_comm]
    simp [deleteById] at hrows
    simp [deleteById, hrows, List.append_assoc, hok]
    omega

/-- Full closed form of a fault-free, connected sync_pods call. -/
lemma syncPods_noFail_eq (cid : String) (now : Nat) (pods : List Pod)
    (nsIds : List (String × Nat)) (t : PodsTable) :
    syncPods noFail true cid now pods nsIds t =
      { table := ⟨(t.rows.map (patchRow cid now (lastPodAt nsIds pods)) ++
            newRows cid now nsIds pods (keys3 t) t.nextId).filter (fun r =>
              (podsDeleted cid nsIds pods t).all (fun e => !(r.id == e.2))),
          t.nextId + (newRows cid now nsIds pods (keys3 t) t.nextId).length⟩,
        upserts := currentPairs nsIds pods,
        deletes := (podsDeleted cid nsIds pods t).map (fun e => e.2),
        ok := true } := by
  have hgo := syncPodsGo_noFail cid now nsIds pods ⟨t, [], [], 1, true⟩ rfl
  simp [syncPods, hgo, syncPodsDel_noFail, noFail, podsDeleted, existingDict]

lemma patchRow_cluster (cid : String) (now : Nat) (d : (Nat × String) → Option Pod)
    (r : PodRow) : (patchRow cid now d r).cluster_id = r.cluster_id := by
  unfold patchRow
  by_cases hcl : (r.cluster_id == cid) = true
  · simp only [hcl, if_pos]
    cases d (podKey r) with
    | some p => rw [cluster_applyPod]; exact (beq_iff_eq.1 hcl).symm
    | none => rfl
  · simp only [Bool.not_eq_true] at hcl
    simp [hcl]

lemma patchRow_id (cid : String) (now : Nat) (d : (Nat × String) → Option Pod)
    (r : PodRow) : (patchRow cid now d r).id = r.id := by
  unfold patchRow
  by_cases hcl : (r.cluster_id == cid) = true
  · simp only [hcl, if_pos]
    cases d (podKey r) with
    | some p => rfl
    | none => rfl
  · simp only [Bool.not_eq_true] at hcl
    simp [hcl]

lemma patchRow_podKey (cid : String) (now : Nat) (nsIds : List (String × Nat))
    (pods : List Pod) (r : PodRow) :
    podKey (patchRow cid now (lastPodAt nsIds pods) r) = podKey r := by
  unfold patchRow
  by_cases hcl : (r.cluster_id == cid) = true
  · simp only [hcl, if_pos]
    cases hl : lastPodAt nsIds pods (podKey r) with
    | some p =>
      have hp := resolveKey_some nsIds p (podKey r) (lastPodAt_resolves nsIds pods (podKey r) p hl)
      rw [podKey_applyPod, hp.2]
      simp [podKey]
    | none => rfl
  · simp only [Bool.not_eq_true] at hcl
    simp [hcl]

lemma patchRow_key3 (cid : String) (now : Nat) (nsIds : List (String × Nat))
    (pods : List Pod) (r : PodRow) :
    key3 (patchRow cid now (lastPodAt nsIds pods) r) = key3 r := by
  have h1 := patchRow_cluster cid now (lastPodAt nsIds pods) r
  have h2 := patchRow_podKey cid now nsIds pods r
  simp only [key3, podKey, Prod.ext_iff] at *
  exact ⟨h1, h2⟩

lemma mem_keysFor (cid : String) (t : PodsTable) (k : Nat × String) :
    k ∈ keysFor cid t ↔ ∃ r ∈ t.rows, r.cluster_id = cid ∧ podKey r = k := by
  simp only [keysFor, List.mem_map, List.mem_filter, beq_iff_eq]
  constructor
  · rintro ⟨r, ⟨hr, hc⟩, hk⟩
    exact ⟨r, hr, hc, hk⟩
  · rintro ⟨r, hr, hc, hk⟩
    exact ⟨r, ⟨hr, hc⟩, hk⟩

lemma podKey_mkPodRow (cid : String) (now : Nat) (nid : Nat) (p : Pod) (i : Nat) :
    podKey (mkPodRow cid now nid p i) = (nid, p.name) := rfl

lemma getD_name (nsIds : List (String × Nat)) (ps : List Pod) (k : Nat × String) (p : Pod)
    (h : resolveKey nsIds p = some k) :
    ((lastPodAt nsIds ps k).getD p).name = k.2 := by
  cases hl : lastPodAt nsIds ps k with
  | some q =>
    have hq := resolveKey_some nsIds q k (lastPodAt_resolves nsIds ps k q hl)
    simpa using hq.2
  | none => simpa using (resolveKey_some nsIds p k h).2

lemma newRows_cons_none (cid : String) (now : Nat) (nsIds : List (String × Nat))
    (p : Pod) (ps : List Pod) (K : List (String × Nat × String)) (i : Nat)
    (h : resolveKey nsIds p = none) :
    newRows cid now nsIds (p :: ps) K i = newRows cid now nsIds ps K i := by
  rw [newRows_cons, h]

lemma newRows_cons_pos (cid : String) (now : Nat) (nsIds : List (String × Nat))
    (p : Pod) (ps : List Pod) (K : List (String × Nat × String)) (i : Nat)
    (k : Nat × String) (h : resolveKey nsIds p = some k)
    (hc : K.contains (cid, k.1, k.2) = true) :
    newRows cid now nsIds (p :: ps) K i = newRows cid now nsIds ps K i := by
  have hmem : (cid, k.1, k.2) ∈ K := (contains_iff_mem K (cid, k.1, k.2)).1 hc
  rw [newRows_cons, h]
  simp [hmem]

lemma newRows_cons_neg (cid : String) (now : Nat) (nsIds : List (String × Nat))
    (p : Pod) (ps : List Pod) (K : List (String × Nat × String)) (i : Nat)
    (k : Nat × String) (h : resolveKey nsIds p = some k)
    (hc : K.contains (cid, k.1, k.2) = false) :
    newRows cid now nsIds (p :: ps) K i =
      mkPodRow cid now k.1 ((lastPodAt nsIds ps k).getD p) i ::
        newRows cid now nsIds ps (K ++ [(cid, k.1, k.2)]) (i + 1) := by
  have hmem : (cid, k.1, k.2) ∉ K := by
    intro hm
    rw [(contains_iff_mem K (cid, k.1, k.2)).2 hm] at hc
    simp at hc
  rw [newRows_cons, h]
  simp [hmem]

lemma newRows_mem (cid : String) (now : Nat) (nsIds : List (String × Nat)) :
    ∀ (pods : List Pod) (K : List (String × Nat × String)) (i : Nat) (r : PodRow),
    r ∈ newRows cid now nsIds pods K i →
    r.cluster_id = cid ∧ i ≤ r.id ∧ r.id < i + (newRows cid now nsIds pods K i).length ∧
    podKey r ∈ currentKeys nsIds pods ∧ (cid, (podKey r).1, (podKey r).2) ∉ K := by
  intro pods
  induction pods with
  | nil => intro K i r hr; simp [newRows] at hr
  | cons p ps ih =>
    intro K i r hr
    cases hres : resolveKey nsIds p with
    | none =>
      rw [newRows_cons_none cid now nsIds p ps K i hres] at hr ⊢
      have h := ih K i r hr
      exact ⟨h.1, h.2.1, h.2.2.1, by
        rw [currentKeys_cons_none nsIds p ps hres]; exact h.2.2.2.1, h.2.2.2.2⟩
    | some k =>
      by_cases hcont : (K.contains (cid, k.1, k.2)) = true
      · rw [newRows_cons_pos cid now nsIds p ps K i k hres hcont] at hr ⊢
        have h := ih K i r hr
        exact ⟨h.1, h.2.1, h.2.2.1, by
          rw [currentKeys_cons_some nsIds p ps k hres]
          exact List.mem_cons_of_mem k h.2.2.2.1, h.2.2.2.2⟩
      · rw [Bool.not_eq_true] at hcont
        rw [newRows_cons_neg cid now nsIds p ps K i k hres hcont] at hr ⊢
        rcases List.mem_cons.1 hr with hhead | htail
        · subst hhead
          have hpk : podKey (mkPodRow cid now k.1 ((lastPodAt nsIds ps k).getD p) i) = k := by
            rw [podKey_mkPodRow]
            rw [getD_name nsIds ps k p hres]
          refine ⟨rfl, le_refl i, ?_, ?_, ?_⟩
          · show i < i + _
            simp [List.length_cons]
          · rw [hpk, currentKeys_cons_some nsIds p ps k hres]
            exact List.mem_cons_self k _
          · rw [hpk]
            intro hmem
            rw [← (contains_iff_mem K (cid, k.1, k.2))] at hmem
            rw [hmem] at hcont
            simp at hcont
        · have h := ih (K ++ [(cid, k.1, k.2)]) (i + 1) r htail
          refine ⟨h.1, by omega, ?_, ?_, ?_⟩
          · have := h.2.2.1
            simp only [List.length_cons]
            omega
          · rw [currentKeys_cons_some nsIds p ps k hres]
            exact List.mem_cons_of_mem k h.2.2.2.1
          · intro hmem
            exact h.2.2.2.2 (List.mem_append_left _ hmem)

lemma newRows_complete (cid : String) (now : Nat) (nsIds : List (String × Nat)) :
    ∀ (pods : List Pod) (K : List (String × Nat × String)) (i : Nat) (k : Nat × String),
    k ∈ currentKeys nsIds pods → (cid, k.1, k.2) ∉ K →
    ∃ r ∈ newRows cid now nsIds pods K i, podKey r = k := by
  intro pods
  induction pods with
  | nil => intro K i k hk _; simp [currentKeys] at hk
  | cons p ps ih =>
    intro K i k hk hK
    cases hres : resolveKey nsIds p with
    | none =>
      rw [currentKeys_cons_none nsIds p ps hres] at hk
      rw [newRows_cons_none cid now nsIds p ps K i hres]
      exact ih K i k hk hK
    | some k0 =>
      rw [currentKeys_cons_some nsIds p ps k0 hres] at hk
      by_cases hcont : (K.contains (cid, k0.1, k0.2)) = true
      · rw [newRows_cons_pos cid now nsIds p ps K i k0 hres hcont]
        rcases List.mem_cons.1 hk with heq | htail
        · subst heq
          exact absurd ((contains_iff_mem K (cid, k.1, k.2)).1 hcont) hK
        · exact ih K i k htail hK
      · rw [Bool.not_eq_true] at hcont
        rw [newRows_cons_neg cid now nsIds p ps K i k0 hres hcont]
        by_cases hkk : k = k0
        · subst hkk
          refine ⟨mkPodRow cid now k.1 ((lastPodAt nsIds ps k).getD p) i,
            List.mem_cons_self _ _, ?_⟩
          rw [podKey_mkPodRow]
          rw [getD_name nsIds ps k p hres]
        · have htail : k ∈ currentKeys nsIds ps := by
            rcases List.mem_cons.1 hk with heq | ht
            · exact absurd heq hkk
            · exact ht
          have hK' : (cid, k.1, k.2) ∉ K ++ [(cid, k0.1, k0.2)] := by
            intro hmem
            rcases List.mem_append.1 hmem with h1 | h2
            · exact hK h1
            · simp at h2
              exact hkk h2
          obtain ⟨r, hr, hpk⟩ := ih (K ++ [(cid, k0.1, k0.2)]) (i + 1) k htail hK'
          exact ⟨r, List.mem_cons_of_mem _ hr, hpk⟩

lemma id_mkPodRow (cid : String) (now : Nat) (nid : Nat) (p : Pod) (i : Nat) :
    (mkPodRow cid now nid p i).id = i := rfl

lemma key3_parts (r : PodRow) : key3 r = (r.cluster_id, (podKey r).1, (podKey r).2) := rfl

lemma newRows_ids_nodup (cid : String) (now : Nat) (nsIds : List (String × Nat)) :
    ∀ (pods : List Pod) (K : List (String × Nat × String)) (i : Nat),
    ((newRows cid now nsIds pods K i).map PodRow.id).Nodup := by
  intro pods
  induction pods with
  | nil => intro K i; simp [newRows]
  | cons p ps ih =>
    intro K i
    cases hres : resolveKey nsIds p with
    | none => rw [newRows_cons_none cid now nsIds p ps K i hres]; exact ih K i
    | some k =>
      by_cases hcont : (K.contains (cid, k.1, k.2)) = true
      · rw [newRows_cons_pos cid now nsIds p ps K i k hres hcont]; exact ih K i
      · rw [Bool.not_eq_true] at hcont
        rw [newRows_cons_neg cid now nsIds p ps K i k hres hcont]
        rw [List.map_cons, List.nodup_cons]
        constructor
        · rw [id_mkPodRow]
          intro hmem
          obtain ⟨r, hr, hid⟩ := List.mem_map.1 hmem
          have h := newRows_mem cid now nsIds ps (K ++ [(cid, k.1, k.2)]) (i + 1) r hr
          omega
        · exact ih (K ++ [(cid, k.1, k.2)]) (i + 1)

lemma newRows_keys3_nodup (cid : String) (now : Nat) (nsIds : List (String × Nat)) :
    ∀ (pods : List Pod) (K : List (String × Nat × String)) (i : Nat),
    ((newRows cid now nsIds pods K i).map key3).Nodup := by
  intro pods
  induction pods with
  | nil => intro K i; simp [newRows]
  | cons p ps ih =>
    intro K i
    cases hres : resolveKey nsIds p with
    | none => rw [newRows_cons_none cid now nsIds p ps K i hres]; exact ih K i
    | some k =>
      by_cases hcont : (K.contains (cid, k.1, k.2)) = true
      · rw [newRows_cons_pos cid now nsIds p ps K i k hres hcont]; exact ih K i
      · rw [Bool.not_eq_true] at hcont
        rw [newRows_cons_neg cid now nsIds p ps K i k hres hcont]
        rw [List.map_cons, List.nodup_cons]
        constructor
        · have hk3 : key3 (mkPodRow cid now k.1 ((lastPodAt nsIds ps k).getD p) i) =
              (cid, k.1, k.2) := by
            rw [key3_parts]
            have : podKey (mkPodRow cid now k.1 ((lastPodAt nsIds ps k).getD p) i) = k := by
              rw [podKey_mkPodRow]
              rw [getD_name nsIds ps k p hres]
            rw [this]
            rfl
          rw [hk3]
          intro hmem
          obtain ⟨r, hr, hkey⟩ := List.mem_map.1 hmem
          have h := newRows_mem cid now nsIds ps (K ++ [(cid, k.1, k.2)]) (i + 1) r hr
          apply h.2.2.2.2
          rw [key3_parts, h.1] at hkey
          rw [hkey]
          exact List.mem_append_right _ (List.mem_singleton.2 rfl)
        · exact ih (K ++ [(cid, k.1, k.2)]) (i + 1)

lemma dictOfList_go {κ ν : Type} [BEq κ] [LawfulBEq κ] (l : List (κ × ν)) :
    ∀ acc : List (κ × ν), ((acc ++ l).map Prod.fst).Nodup →
    l.foldl (fun m e => assocSet m e.1 e.2) acc = acc ++ l := by
  induction l with
  | nil => intro acc _; simp
  | cons e l ih =>
    intro acc hnd
    have hdisj : (acc.map Prod.fst).Disjoint ((e :: l).map Prod.fst) := by
      rw [List.map_append] at hnd
      exact (List.nodup_append.1 hnd).2.2
    have hany : (acc.any (fun x => x.1 == e.1)) = false := by
      rw [← Bool.not_eq_true]
      intro hc
      obtain ⟨x, hx, hbe⟩ := List.any_eq_true.1 hc
      have hxe : x.1 = e.1 := by simpa using hbe
      exact hdisj (List.mem_map_of_mem Prod.fst hx)
        (hxe ▸ List.mem_map_of_mem Prod.fst (List.mem_cons_self e l))
    rw [List.foldl_cons]
    have hset : assocSet acc e.1 e.2 = acc ++ [e] := by
      unfold assocSet
      rw [hany]
      simp
    rw [hset]
    have hnd' : (((acc ++ [e]) ++ l).map Prod.fst).Nodup := by
      rw [List.append_assoc, List.singleton_append]
      exact hnd
    rw [ih (acc ++ [e]) hnd', List.append_assoc, List.singleton_append]

lemma dictOfList_self {κ ν : Type} [BEq κ] [LawfulBEq κ] (l : List (κ × ν))
    (h : (l.map Prod.fst).Nodup) : dictOfList l = l := by
  unfold dictOfList
  have := dictOfList_go l [] (by simpa using h)
  simpa using this

lemma rows_nodup_of_wf (t : PodsTable) (hwf : PodsWf t) : t.rows.Nodup :=
  List.Nodup.of_map key3 hwf.1

lemma existingDict_eq (cid : String) (t : PodsTable) (hwf : PodsWf t) :
    existingDict cid t =
      (t.rows.filter (fun r => r.cluster_id == cid)).map (fun r => (podKey r, r.id)) := by
  unfold existingDict
  apply dictOfList_self
  rw [List.map_map]
  have hfn : (t.rows.filter (fun r => r.cluster_id == cid)).Nodup :=
    List.Nodup.sublist (List.filter_sublist _) (rows_nodup_of_wf t hwf)
  apply List.Nodup.map_on _ hfn
  intro x hx y hy hxy
  simp only [Function.comp_apply] at hxy
  have hxc : x.cluster_id = cid := by
    have := (List.mem_filter.1 hx).2
    simpa using this
  have hyc : y.cluster_id = cid := by
    have := (List.mem_filter.1 hy).2
    simpa using this
  have hk3 : key3 x = key3 y := by
    rw [key3_parts, key3_parts, hxc, hyc, hxy]
  exact List.inj_on_of_nodup_map hwf.1 (List.mem_of_mem_filter hx)
    (List.mem_of_mem_filter hy) hk3

lemma mem_podsDeleted (cid : String) (nsIds : List (String × Nat)) (pods : List Pod)
    (t : PodsTable) (hwf : PodsWf t) (e : (Nat × String) × Nat) :
    e ∈ podsDeleted cid nsIds pods t ↔
      (∃ r ∈ t.rows, r.cluster_id = cid ∧ podKey r = e.1 ∧ r.id = e.2) ∧
      e.1 ∉ currentKeys nsIds pods := by
  unfold podsDeleted
  rw [existingDict_eq cid t hwf, List.mem_filter]
  constructor
  · rintro ⟨hm, hc⟩
    obtain ⟨r, hrf, hre⟩ := List.mem_map.1 hm
    rw [List.mem_filter] at hrf
    refine ⟨⟨r, hrf.1, by simpa using hrf.2, ?_, ?_⟩, ?_⟩
    · rw [← hre]
    · rw [← hre]
    · intro hmem
      rw [← (contains_iff_mem (currentKeys nsIds pods) e.1)] at hmem
      rw [hmem] at hc
      simp at hc
  · rintro ⟨⟨r, hr, hcl, hk, hid⟩, hnc⟩
    constructor
    · refine List.mem_map.2 ⟨r, List.mem_filter.2 ⟨hr, by simp [hcl]⟩, ?_⟩
      rw [hk, hid]
    · simpa using hnc

/-- Master key-set lemma: after a fault-free, connected sync_pods run on a
well-formed sink, the key set held for this cluster is exactly the current
key set of the collection (resolved pods), whatever it was before. -/
lemma syncPods_keysFor (cid : String) (now : Nat) (pods : List Pod)
    (nsIds : List (String × Nat)) (t : PodsTable) (hwf : PodsWf t) (k : Nat × String) :
    k ∈ keysFor cid (syncPods noFail true cid now pods nsIds t).table ↔
      k ∈ currentKeys nsIds pods := by
  rw [syncPods_noFail_eq]
  constructor
  · intro hk
    rw [mem_keysFor] at hk
    obtain ⟨r, hr, hcl, hpk⟩ := hk
    rw [List.mem_filter] at hr
    obtain ⟨hrm, hsurv⟩ := hr
    rcases List.mem_append.1 hrm with hP | hN
    · obtain ⟨r0, hr0, hpat⟩ := List.mem_map.1 hP
      have hcl0 : r0.cluster_id = cid := by
        rw [← patchRow_cluster cid now (lastPodAt nsIds pods) r0, hpat]
        exact hcl
      have hpk0 : podKey r0 = k := by
        rw [← patchRow_podKey cid now nsIds pods r0, hpat]
        exact hpk
      by_contra hkc
      have hD : (k, r0.id) ∈ podsDeleted cid nsIds pods t :=
        (mem_podsDeleted cid nsIds pods t hwf (k, r0.id)).2
          ⟨⟨r0, hr0, hcl0, hpk0, rfl⟩, hkc⟩
      have hall := List.all_eq_true.1 hsurv (k, r0.id) hD
      rw [← hpat, patchRow_id] at hall
      simp at hall
    · have h := newRows_mem cid now nsIds pods (keys3 t) t.nextId r hN
      rw [hpk] at h
      exact h.2.2.2.1
  · intro hk
    by_cases hex : (cid, k.1, k.2) ∈ keys3 t
    · obtain ⟨r0, hr0, hk3⟩ := List.mem_map.1 hex
      have hcl0 : r0.cluster_id = cid := congrArg (fun x => x.1) hk3
      have hpk0 : podKey r0 = k := by
        have h2 : r0.namespace_id = k.1 := congrArg (fun x => x.2.1) hk3
        have h3 : r0.name = k.2 := congrArg (fun x => x.2.2) hk3
        rw [podKey, h2, h3]
      rw [mem_keysFor]
      refine ⟨patchRow cid now (lastPodAt nsIds pods) r0, ?_, ?_, ?_⟩
      · rw [List.mem_filter]
        refine ⟨List.mem_append_left _ (List.mem_map_of_mem _ hr0), ?_⟩
        rw [List.all_eq_true]
        rintro e heD
        obtain ⟨⟨r1, hr1, hcl1, hpk1, hid1⟩, hnc⟩ :=
          (mem_podsDeleted cid nsIds pods t hwf e).1 heD
        rw [patchRow_id]
        simp only [Bool.not_eq_true', beq_eq_false_iff_ne, ne_eq]
        intro hid
        have : r0 = r1 := List.inj_on_of_nodup_map hwf.2.1 hr0 hr1 (by rw [hid, hid1])
        apply hnc
        rw [← hpk1, ← this, hpk0]
        exact hk
      · rw [patchRow_cluster]
        exact hcl0
      · rw [patchRow_podKey]
        exact hpk0
    · obtain ⟨r, hrN, hpk⟩ := newRows_complete cid now nsIds pods (keys3 t) t.nextId k hk hex
      have hprops := newRows_mem cid now nsIds pods (keys3 t) t.nextId r hrN
      rw [mem_keysFor]
      refine ⟨r, ?_, hprops.1, hpk⟩
      rw [List.mem_filter]
      refine ⟨List.mem_append_right _ hrN, ?_⟩
      rw [List.all_eq_true]
      rintro e heD
      obtain ⟨⟨r1, hr1, hcl1, hpk1, hid1⟩, hnc⟩ :=
        (mem_podsDeleted cid nsIds pods t hwf e).1 heD
      have hb := hwf.2.2 r1 hr1
      have hrge := hprops.2.1
      simp only [Bool.not_eq_true', beq_eq_false_iff_ne, ne_eq]
      omega

/-- Also needed downstream: a fault-free sync_pods run returns True. -/
lemma syncPods_ok (cid : String) (now : Nat) (pods : List Pod)
    (nsIds : List (String × Nat)) (t : PodsTable) :
    (syncPods noFail true cid now pods nsIds t).ok = true := by
  rw [syncPods_noFail_eq]

lemma syncPods_wf (cid : String) (now : Nat) (pods : List Pod)
    (nsIds : List (String × Nat)) (t : PodsTable) (hwf : PodsWf t) :
    PodsWf (syncPods noFail true cid now pods nsIds t).table := by
  rw [syncPods_noFail_eq]
  have hPkey : (t.rows.map (patchRow cid now (lastPodAt nsIds pods))).map key3 =
      t.rows.map key3 := by
    rw [List.map_map]
    apply List.map_congr_left
    intro r _
    exact patchRow_key3 cid now nsIds pods r
  have hPid : (t.rows.map (patchRow cid now (lastPodAt nsIds pods))).map PodRow.id =
      t.rows.map PodRow.id := by
    rw [List.map_map]
    apply List.map_congr_left
    intro r _
    exact patchRow_id cid now (lastPodAt nsIds pods) r
  refine ⟨?_, ?_, ?_⟩
  · apply List.Nodup.sublist (List.Sublist.map key3 (List.filter_sublist _))
    rw [List.map_append, hPkey, List.nodup_append]
    refine ⟨hwf.1, newRows_keys3_nodup cid now nsIds pods (keys3 t) t.nextId, ?_⟩
    intro c hc1 hc2
    obtain ⟨r, hrN, hkey⟩ := List.mem_map.1 hc2
    have h := newRows_mem cid now nsIds pods (keys3 t) t.nextId r hrN
    have hcc : c = (cid, (podKey r).1, (podKey r).2) := by
      rw [← hkey, key3_parts, h.1]
    exact h.2.2.2.2 (hcc ▸ hc1)
  · apply List.Nodup.sublist (List.Sublist.map PodRow.id (List.filter_sublist _))
    rw [List.map_append, hPid, List.nodup_append]
    refine ⟨hwf.2.1, newRows_ids_nodup cid now nsIds pods (keys3 t) t.nextId, ?_⟩
    intro a ha1 ha2
    obtain ⟨r0, hr0, hid0⟩ := List.mem_map.1 ha1
    obtain ⟨r1, hr1, hid1⟩ := List.mem_map.1 ha2
    have hb0 := hwf.2.2 r0 hr0
    have h1 := newRows_mem cid now nsIds pods (keys3 t) t.nextId r1 hr1
    omega
  · intro r hr
    have hr' := List.mem_of_mem_filter hr
    rcases List.mem_append.1 hr' with hP | hN
    · obtain ⟨r0, hr0, hpat⟩ := List.mem_map.1 hP
      have hb := hwf.2.2 r0 hr0
      have hid : r.id = r0.id := by rw [← hpat, patchRow_id]
      show r.id < t.nextId + _
      omega
    · have h := newRows_mem cid now nsIds pods (keys3 t) t.nextId r hN
      exact h.2.2.1

lemma keysFor_keys3 (cid : String) (t : PodsTable) (k : Nat × String) :
    k ∈ keysFor cid t ↔ (cid, k.1, k.2) ∈ keys3 t := by
  rw [mem_keysFor]
  constructor
  · rintro ⟨r, hr, hcl, hpk⟩
    refine List.mem_map.2 ⟨r, hr, ?_⟩
    rw [key3_parts, hcl, hpk]
  · intro hm
    obtain ⟨r, hr, hk3⟩ := List.mem_map.1 hm
    refine ⟨r, hr, congrArg (fun x => x.1) hk3, ?_⟩
    have h2 : r.namespace_id = k.1 := congrArg (fun x => x.2.1) hk3
    have h3 : r.name = k.2 := congrArg (fun x => x.2.2) hk3
    rw [podKey, h2, h3]

lemma podsDeleted_rerun (cid : String) (now : Nat) (pods : List Pod)
    (nsIds : List (String × Nat)) (t : PodsTable) (hwf : PodsWf t) :
    podsDeleted cid nsIds pods (syncPods noFail true cid now pods nsIds t).table = [] := by
  have hwf2 := syncPods_wf cid now pods nsIds t hwf
  apply List.eq_nil_iff_forall_not_mem.2
  intro e he
  obtain ⟨⟨r, hr, hcl, hpk, _⟩, hnc⟩ :=
    (mem_podsDeleted cid nsIds pods _ hwf2 e).1 he
  apply hnc
  exact (syncPods_keysFor cid now pods nsIds t hwf e.1).1
    ((mem_keysFor cid _ e.1).2 ⟨r, hr, hcl, hpk⟩)

lemma newRows_nil_of_mem (cid : String) (now : Nat) (nsIds : List (String × Nat)) :
    ∀ (pods : List Pod) (K : List (String × Nat × String)) (i : Nat),
    (∀ k ∈ currentKeys nsIds pods, (cid, k.1, k.2) ∈ K) →
    newRows cid now nsIds pods K i = [] := by
  intro pods
  induction pods with
  | nil => intro K i _; simp [newRows]
  | cons p ps ih =>
    intro K i hall
    cases hres : resolveKey nsIds p with
    | none =>
      rw [newRows_cons_none cid now nsIds p ps K i hres]
      apply ih K i
      intro k hk
      apply hall k
      rw [currentKeys_cons_none nsIds p ps hres]
      exact hk
    | some k0 =>
      have hmem : (cid, k0.1, k0.2) ∈ K := hall k0 (by
        rw [currentKeys_cons_some nsIds p ps k0 hres]
        exact List.mem_cons_self _ _)
      rw [newRows_cons_pos cid now nsIds p ps K i k0 hres
        ((contains_iff_mem K (cid, k0.1, k0.2)).2 hmem)]
      apply ih K i
      intro k hk
      exact hall k (by
        rw [currentKeys_cons_some nsIds p ps k0 hres]
        exact List.mem_cons_of_mem _ hk)

lemma patchRow_none_d (cid : String) (now : Nat) (d : (Nat × String) → Option Pod)
    (r : PodRow) (hd : d (podKey r) = none) : patchRow cid now d r = r := by
  unfold patchRow
  rw [hd]
  split <;> rfl

lemma patchRow_some_d (cid : String) (now : Nat) (d : (Nat × String) → Option Pod)
    (r : PodRow) (p : Pod) (hcl : (r.cluster_id == cid) = true) (hd : d (podKey r) = some p) :
    patchRow cid now d r = applyPod cid now r.namespace_id p r := by
  unfold patchRow
  rw [hd, if_pos hcl]

lemma patchRow_not_cl (cid : String) (now : Nat) (d : (Nat × String) → Option Pod)
    (r : PodRow) (hcl : (r.cluster_id == cid) = false) : patchRow cid now d r = r := by
  unfold patchRow
  rw [hcl]
  simp

lemma applyPod_eq_mk (cid : String) (now : Nat) (nid : Nat) (p : Pod) (r : PodRow) :
    applyPod cid now nid p r = mkPodRow cid now nid p r.id := rfl

lemma stripTime_mkPodRow (cid : String) (now : Nat) (nid : Nat) (p : Pod) (i : Nat) :
    stripTime (mkPodRow cid now nid p i) = mkPodRow cid 0 nid p i := rfl

lemma patchRow_patchRow (cid : String) (now1 now2 : Nat) (nsIds : List (String × Nat))
    (pods : List Pod) (r : PodRow) :
    patchRow cid now2 (lastPodAt nsIds pods) (patchRow cid now1 (lastPodAt nsIds pods) r) =
      patchRow cid now2 (lastPodAt nsIds pods) r := by
  by_cases hcl : (r.cluster_id == cid) = true
  · cases hl : lastPodAt nsIds pods (podKey r) with
    | none => rw [patchRow_none_d cid now1 (lastPodAt nsIds pods) r hl]
    | some p =>
      rw [patchRow_some_d cid now1 (lastPodAt nsIds pods) r p hcl hl]
      have hres := lastPodAt_resolves nsIds pods (podKey r) p hl
      have hpn : p.name = r.name := (resolveKey_some nsIds p (podKey r) hres).2
      have hclx : ((applyPod cid now1 r.namespace_id p r).cluster_id == cid) = true := by
        rw [cluster_applyPod]
        simp
      have hpkx : podKey (applyPod cid now1 r.namespace_id p r) = podKey r := by
        rw [podKey_applyPod, hpn]
        rfl
      rw [patchRow_some_d cid now2 (lastPodAt nsIds pods) _ p hclx (by rw [hpkx]; exact hl)]
      rw [patchRow_some_d cid now2 (lastPodAt nsIds pods) r p hcl hl]
      rw [nsid_applyPod, applyPod_applyPod]
  · rw [Bool.not_eq_true] at hcl
    rw [patchRow_not_cl cid now1 (lastPodAt nsIds pods) r hcl]

lemma patchRow_strip_time (cid : String) (now1 now2 : Nat)
    (d : (Nat × String) → Option Pod) (r : PodRow) :
    stripTime (patchRow cid now1 d r) = stripTime (patchRow cid now2 d r) := by
  by_cases hcl : (r.cluster_id == cid) = true
  · cases hl : d (podKey r) with
    | none =>
      rw [patchRow_none_d cid now1 d r hl, patchRow_none_d cid now2 d r hl]
    | some p =>
      rw [patchRow_some_d cid now1 d r p hcl hl, patchRow_some_d cid now2 d r p hcl hl]
      rfl
  · rw [Bool.not_eq_true] at hcl
    rw [patchRow_not_cl cid now1 d r hcl, patchRow_not_cl cid now2 d r hcl]

lemma lastPodAt_cons_of_some (nsIds : List (String × Nat)) (p : Pod) (ps : List Pod)
    (k : Nat × String) (q : Pod) (h : lastPodAt nsIds ps k = some q) :
    lastPodAt nsIds (p :: ps) k = some q := by
  rw [lastPodAt_cons, h]

lemma newRows_shape (cid : String) (now : Nat) (nsIds : List (String × Nat)) :
    ∀ (pods : List Pod) (K : List (String × Nat × String)) (i : Nat) (r : PodRow),
    r ∈ newRows cid now nsIds pods K i →
    ∃ q, lastPodAt nsIds pods (podKey r) = some q ∧
      r = mkPodRow cid now (podKey r).1 q r.id := by
  intro pods
  induction pods with
  | nil => intro K i r hr; simp [newRows] at hr
  | cons p ps ih =>
    intro K i r hr
    cases hres : resolveKey nsIds p with
    | none =>
      rw [newRows_cons_none cid now nsIds p ps K i hres] at hr
      obtain ⟨q, hq, hsh⟩ := ih K i r hr
      rw [lastPodAt_cons_unresolved nsIds p ps (podKey r) hres]
      exact ⟨q, hq, hsh⟩
    | some k0 =>
      by_cases hcont : (K.contains (cid, k0.1, k0.2)) = true
      · rw [newRows_cons_pos cid now nsIds p ps K i k0 hres hcont] at hr
        obtain ⟨q, hq, hsh⟩ := ih K i r hr
        exact ⟨q, lastPodAt_cons_of_some nsIds p ps (podKey r) q hq, hsh⟩
      · rw [Bool.not_eq_true] at hcont
        rw [newRows_cons_neg cid now nsIds p ps K i k0 hres hcont] at hr
        rcases List.mem_cons.1 hr with hhead | htail
        · have hpk : podKey (mkPodRow cid now k0.1 ((lastPodAt nsIds ps k0).getD p) i) = k0 := by
            rw [podKey_mkPodRow]
            rw [getD_name nsIds ps k0 p hres]
          refine ⟨(lastPodAt nsIds ps k0).getD p, ?_, ?_⟩
          · rw [hhead, hpk]
            exact lastPodAt_cons_self nsIds p ps k0 hres
          · rw [hhead, hpk]
            rfl
        · obtain ⟨q, hq, hsh⟩ := ih (K ++ [(cid, k0.1, k0.2)]) (i + 1) r htail
          exact ⟨q, lastPodAt_cons_of_some nsIds p ps (podKey r) q hq, hsh⟩

/-- Idempotence core: re-running sync_pods on an unchanged collection and
mapping issues no deletes, issues the same upserts, and leaves the rows
unchanged up to the updated_at timestamp. -/
lemma syncPods_idem (cid : String) (now1 now2 : Nat) (pods : List Pod)
    (nsIds : List (String × Nat)) (t : PodsTable) (hwf : PodsWf t) :
    (syncPods noFail true cid now2 pods nsIds
      (syncPods noFail true cid now1 pods nsIds t).table).deletes = [] ∧
    (syncPods noFail true cid now2 pods nsIds
      (syncPods noFail true cid now1 pods nsIds t).table).upserts =
      (syncPods noFail true cid now1 pods nsIds t).upserts ∧
    (syncPods noFail true cid now2 pods nsIds
      (syncPods noFail true cid now1 pods nsIds t).table).table.rows.map stripTime =
      (syncPods noFail true cid now1 pods nsIds t).table.rows.map stripTime ∧
    (syncPods noFail true cid now2 pods nsIds
      (syncPods noFail true cid now1 pods nsIds t).table).table.nextId =
      (syncPods noFail true cid now1 pods nsIds t).table.nextId := by
  have hdel2 : podsDeleted cid nsIds pods
      (syncPods noFail true cid now1 pods nsIds t).table = [] :=
    podsDeleted_rerun cid now1 pods nsIds t hwf
  have hN2 : newRows cid now2 nsIds pods
      (keys3 (syncPods noFail true cid now1 pods nsIds t).table)
      (syncPods noFail true cid now1 pods nsIds t).table.nextId = [] := by
    apply newRows_nil_of_mem
    intro k hk
    exact (keysFor_keys3 cid _ k).1 ((syncPods_keysFor cid now1 pods nsIds t hwf k).2 hk)
  have ho1rows : (syncPods noFail true cid now1 pods nsIds t).table.rows =
      ((t.rows.map (patchRow cid now1 (lastPodAt nsIds pods)) ++
        newRows cid now1 nsIds pods (keys3 t) t.nextId).filter (fun r =>
          (podsDeleted cid nsIds pods t).all (fun e => !(r.id == e.2)))) := by
    rw [syncPods_noFail_eq]
  refine ⟨?_, ?_, ?_, ?_⟩
  · conv_lhs => rw [syncPods_noFail_eq]
    rw [hdel2]
    rfl
  · conv_lhs => rw [syncPods_noFail_eq]
    conv_rhs => rw [syncPods_noFail_eq]
  · have ho2rows : (syncPods noFail true cid now2 pods nsIds
        (syncPods noFail true cid now1 pods nsIds t).table).table.rows =
        (syncPods noFail true cid now1 pods nsIds t).table.rows.map
          (patchRow cid now2 (lastPodAt nsIds pods)) := by
      conv_lhs => rw [syncPods_noFail_eq]
      rw [hdel2, hN2]
      simp
    rw [ho2rows, List.map_map]
    apply List.map_congr_left
    intro r hr
    rw [ho1rows] at hr
    have hr1 := List.mem_of_mem_filter hr
    rcases List.mem_append.1 hr1 with hP | hN
    · obtain ⟨r0, hr0, hpat⟩ := List.mem_map.1 hP
      show stripTime (patchRow cid now2 (lastPodAt nsIds pods) r) = stripTime r
      rw [← hpat, patchRow_patchRow]
      exact patchRow_strip_time cid now2 now1 (lastPodAt nsIds pods) r0
    · obtain ⟨q, hlq, hshape⟩ := newRows_shape cid now1 nsIds pods (keys3 t) t.nextId r hN
      have hprops := newRows_mem cid now1 nsIds pods (keys3 t) t.nextId r hN
      have hclr : (r.cluster_id == cid) = true := by
        rw [hprops.1]
        simp
      show stripTime (patchRow cid now2 (lastPodAt nsIds pods) r) = stripTime r
      rw [patchRow_some_d cid now2 (lastPodAt nsIds pods) r q hclr hlq]
      rw [applyPod_eq_mk]
      conv_rhs => rw [hshape]
      rfl
  · conv_lhs => rw [syncPods_noFail_eq]
    rw [hN2]
    simp

/-! ### Lemmas for the namespace resolver. -/

lemma syncNamespacesGo_nil (o : Nat → NsResp) (cid : String) (now : Nat)
    (t : NsTable) (ids : List (String × Nat)) (k : Nat) :
    syncNamespacesGo o cid now [] t ids k =
      match o k with
      | NsResp.raise => (t, ids)
      | _ => (t, (t.rows.filter (fun r => r.cluster_id == cid)).foldl
          (fun m r => assocSet m r.name r.id) ids) := rfl

lemma syncNamespacesGo_cons (o : Nat → NsResp) (cid : String) (now : Nat)
    (n : NsInput) (rest : List NsInput) (t : NsTable) (ids : List (String × Nat)) (k : Nat) :
    syncNamespacesGo o cid now (n :: rest) t ids k =
      match o k with
      | NsResp.raise => (t, ids)
      | NsResp.okSilent =>
        syncNamespacesGo o cid now rest (upsertNs cid now n t).1 ids (k + 1)
      | NsResp.ok =>
        syncNamespacesGo o cid now rest (upsertNs cid now n t).1
          (assocSet ids n.name (upsertNs cid now n t).2) (k + 1) := rfl

lemma nsUpsertPhase_cons (cid : String) (now : Nat) (n : NsInput) (rest : List NsInput)
    (t : NsTable) (ids : List (String × Nat)) :
    nsUpsertPhase cid now (n :: rest) t ids =
      nsUpsertPhase cid now rest (upsertNs cid now n t).1
        (assocSet ids n.name (upsertNs cid now n t).2) := rfl

lemma syncNamespacesGo_failAt (cid : String) (now : Nat) :
    ∀ (nss : List NsInput) (t : NsTable) (ids : List (String × Nat)) (k m : Nat),
    m ≤ nss.length →
    syncNamespacesGo (failAt (k + m)) cid now nss t ids k =
      nsUpsertPhase cid now (nss.take m) t ids := by
  intro nss
  induction nss with
  | nil =>
    intro t ids k m hm
    have hm0 : m = 0 := Nat.le_zero.1 hm
    subst hm0
    have hr : failAt (k + 0) k = NsResp.raise := by simp [failAt]
    rw [syncNamespacesGo_nil, hr]
    simp [nsUpsertPhase]
  | cons n rest ih =>
    intro t ids k m hm
    cases m with
    | zero =>
      have hr : failAt (k + 0) k = NsResp.raise := by simp [failAt]
      rw [syncNamespacesGo_cons, hr]
      simp [nsUpsertPhase]
    | succ m' =>
      have hok : failAt (k + (m' + 1)) k = NsResp.ok := by
        simp only [failAt]
        have hkk : (k == k + (m' + 1)) = false := by
          rw [beq_eq_false_iff_ne]
          omega
        rw [hkk]
        rfl
      rw [syncNamespacesGo_cons, hok]
      show syncNamespacesGo (failAt (k + (m' + 1))) cid now rest (upsertNs cid now n t).1
        (assocSet ids n.name (upsertNs cid now n t).2) (k + 1) = _
      have harg : k + (m' + 1) = (k + 1) + m' := by omega
      rw [harg, ih (upsertNs cid now n t).1 _ (k + 1) m' (by simpa using hm)]
      rw [List.take_succ_cons, nsUpsertPhase_cons]

lemma syncNamespacesGo_ok (cid : String) (now : Nat) :
    ∀ (nss : List NsInput) (t : NsTable) (ids : List (String × Nat)) (k : Nat),
    syncNamespacesGo nsOk cid now nss t ids k =
      ((nsUpsertPhase cid now nss t ids).1,
        (((nsUpsertPhase cid now nss t ids).1.rows.filter
          (fun r => r.cluster_id == cid)).foldl
            (fun m r => assocSet m r.name r.id) (nsUpsertPhase cid now nss t ids).2)) := by
  intro nss
  induction nss with
  | nil =>
    intro t ids k
    rw [syncNamespacesGo_nil]
    rfl
  | cons n rest ih =>
    intro t ids k
    rw [syncNamespacesGo_cons]
    show syncNamespacesGo nsOk cid now rest (upsertNs cid now n t).1
      (assocSet ids n.name (upsertNs cid now n t).2) (k + 1) = _
    rw [ih, nsUpsertPhase_cons]

lemma find?_map_replace_ne {ν : Type} (k n : String) (v : ν) (hne : n ≠ k) :
    ∀ m : List (String × ν),
    (m.map (fun e => if e.1 == k then (k, v) else e)).find? (fun e => e.1 == n) =
      m.find? (fun e => e.1 == n) := by
  intro m
  induction m with
  | nil => rfl
  | cons e m ih =>
    by_cases he : (e.1 == k) = true
    · have h1 : e.1 = k := by simpa using he
      have hkn : ((k, v).1 == n) = false := by
        simp only []
        rw [beq_eq_false_iff_ne]
        exact fun hc => hne hc.symm
      have hen : (e.1 == n) = false := by
        rw [h1, beq_eq_false_iff_ne]
        exact fun hc => hne hc.symm
      rw [List.map_cons, List.find?_cons, List.find?_cons, he]
      simp only [if_pos]
      rw [hkn, hen]
      exact ih
    · rw [Bool.not_eq_true] at he
      rw [List.map_cons, List.find?_cons, List.find?_cons, he]
      simp only [Bool.false_eq_true, if_false]
      cases hen : (e.1 == n) with
      | true => rfl
      | false => exact ih

lemma find?_map_replace_self {ν : Type} (k : String) (v : ν) :
    ∀ m : List (String × ν), m.any (fun e => e.1 == k) = true →
    (m.map (fun e => if e.1 == k then (k, v) else e)).find? (fun e => e.1 == k) =
      some (k, v) := by
  intro m
  induction m with
  | nil => intro h; simp at h
  | cons e m ih =>
    intro hany
    by_cases he : (e.1 == k) = true
    · rw [List.map_cons, List.find?_cons, he]
      simp only [if_pos]
      have : ((k, v).1 == k) = true := by simp
      rw [this]
    · rw [Bool.not_eq_true] at he
      rw [List.map_cons, List.find?_cons, he]
      simp only [Bool.false_eq_true, if_false, he]
      apply ih
      rw [List.any_cons, he] at hany
      simpa using hany

lemma alookup_assocSet_self {ν : Type} (m : List (String × ν)) (k : String) (v : ν) :
    alookup (assocSet m k v) k = some v := by
  unfold assocSet
  by_cases hany : (m.any (fun e => e.1 == k)) = true
  · rw [if_pos hany]
    unfold alookup
    rw [find?_map_replace_self k v m hany]
    rfl
  · rw [Bool.not_eq_true] at hany
    rw [hany]
    simp only [Bool.false_eq_true, if_false]
    unfold alookup
    rw [List.find?_append]
    have hnone : m.find? (fun e => e.1 == k) = none := by
      rw [List.find?_eq_none]
      intro x hx hbe
      have : m.any (fun e => e.1 == k) = true := List.any_eq_true.2 ⟨x, hx, hbe⟩
      rw [this] at hany
      cases hany
    rw [hnone]
    simp [List.find?_cons]

lemma alookup_assocSet_ne {ν : Type} (m : List (String × ν)) (k n : String) (v : ν)
    (hne : n ≠ k) : alookup (assocSet m k v) n = alookup m n := by
  unfold assocSet
  by_cases hany : (m.any (fun e => e.1 == k)) = true
  · rw [if_pos hany]
    unfold alookup
    rw [find?_map_replace_ne k n v hne m]
  · rw [Bool.not_eq_true] at hany
    rw [hany]
    simp only [Bool.false_eq_true, if_false]
    unfold alookup
    rw [List.find?_append]
    have hkn : ((k, v).1 == n) = false := by
      simp only []
      rw [beq_eq_false_iff_ne]
      exact fun hc => hne hc.symm
    have hnone : ([(k, v)].find? (fun e => e.1 == n)) = none := by
      rw [List.find?_cons, hkn]
      rfl
    rw [hnone]
    cases m.find? (fun e => e.1 == n) <;> rfl

lemma alookup_foldl_not_mem :
    ∀ (L : List NsRow) (m : List (String × Nat)) (n : String),
    n ∉ L.map NsRow.name →
    alookup (L.foldl (fun m r => assocSet m r.name r.id) m) n = alookup m n := by
  intro L
  induction L with
  | nil => intro m n _; rfl
  | cons r L ih =>
    intro m n hn
    rw [List.map_cons] at hn
    have hne : n ≠ r.name := fun h => hn (h ▸ List.mem_cons_self _ _)
    rw [List.foldl_cons, ih (assocSet m r.name r.id) n (fun h => hn (List.mem_cons_of_mem _ h))]
    exact alookup_assocSet_ne m r.name n r.id hne

lemma alookup_foldl_mem :
    ∀ (L : List NsRow) (m : List (String × Nat)),
    (L.map NsRow.name).Nodup →
    ∀ r ∈ L, alookup (L.foldl (fun m r => assocSet m r.name r.id) m) r.name = some r.id := by
  intro L
  induction L with
  | nil => intro m _ r hr; cases hr
  | cons r0 L ih =>
    intro m hnd r hr
    rw [List.map_cons, List.nodup_cons] at hnd
    rcases List.mem_cons.1 hr with heq | htail
    · subst heq
      rw [List.foldl_cons]
      rw [alookup_foldl_not_mem L (assocSet m r.name r.id) r.name hnd.1]
      exact alookup_assocSet_self m r.name r.id
    · rw [List.foldl_cons]
      exact ih (assocSet m r0.name r0.id) hnd.2 r htail

lemma upsertNs_wf (cid : String) (now : Nat) (n : NsInput) (t : NsTable) (hwf : NsWf t) :
    NsWf (upsertNs cid now n t).1 := by
  unfold upsertNs NsWf
  cases hf : t.rows.find? (fun r => r.cluster_id == cid && r.name == n.name) with
  | some r =>
    show ((t.rows.map _).map _).Nodup
    rw [List.map_map]
    have heq : (t.rows.map ((fun r => (r.cluster_id, r.name)) ∘ (fun r0 =>
        if r0.cluster_id == cid && r0.name == n.name then
          { r0 with status := n.status, updated_at := now } else r0))) =
        t.rows.map (fun r => (r.cluster_id, r.name)) := by
      apply List.map_congr_left
      intro r0 _
      by_cases hc : (r0.cluster_id == cid && r0.name == n.name) = true
      · simp only [Function.comp_apply, hc, if_pos]
      · rw [Bool.not_eq_true] at hc
        have hprop : ¬(r0.cluster_id = cid ∧ r0.name = n.name) := by
          intro hp
          have hcc : (r0.cluster_id == cid && r0.name == n.name) = true := by
            simp [hp.1, hp.2]
          rw [hcc] at hc
          cases hc
        simp [Function.comp_apply, hprop]
    rw [heq]
    exact hwf
  | none =>
    show ((t.rows ++ _).map _).Nodup
    rw [List.map_append, List.nodup_append]
    refine ⟨hwf, by simp, ?_⟩
    intro c hc1 hc2
    simp only [List.map_cons, List.map_nil, List.mem_singleton] at hc2
    obtain ⟨r0, hr0, hkey⟩ := List.mem_map.1 hc1
    have : ¬((r0.cluster_id == cid && r0.name == n.name) = true) := by
      intro hct
      have := List.find?_eq_none.1 hf r0 hr0
      exact this hct
    apply this
    rw [hc2] at hkey
    have h1 : r0.cluster_id = cid := congrArg Prod.fst hkey
    have h2 : r0.name = n.name := congrArg Prod.snd hkey
    simp [h1, h2]

lemma nsUpsertPhase_wf (cid : String) (now : Nat) :
    ∀ (nss : List NsInput) (t : NsTable) (ids : List (String × Nat)), NsWf t →
    NsWf (nsUpsertPhase cid now nss t ids).1 := by
  intro nss
  induction nss with
  | nil => intro t ids hwf; exact hwf
  | cons n rest ih =>
    intro t ids hwf
    rw [nsUpsertPhase_cons]
    exact ih (upsertNs cid now n t).1 _ (upsertNs_wf cid now n t hwf)

lemma ns_filtered_names_nodup (cid : String) (t : NsTable) (hwf : NsWf t) :
    ((t.rows.filter (fun r => r.cluster_id == cid)).map NsRow.name).Nodup := by
  have hfn : (t.rows.filter (fun r => r.cluster_id == cid)).Nodup :=
    List.Nodup.sublist (List.filter_sublist _) (List.Nodup.of_map _ hwf)
  apply List.Nodup.map_on _ hfn
  intro x hx y hy hxy
  have hxc : x.cluster_id = cid := by simpa using (List.mem_filter.1 hx).2
  have hyc : y.cluster_id = cid := by simpa using (List.mem_filter.1 hy).2
  have hk : (fun r => (r.cluster_id, r.name)) x = (fun r => (r.cluster_id, r.name)) y := by
    simp only []
    rw [hxc, hyc, hxy]
  exact List.inj_on_of_nodup_map hwf (List.mem_of_mem_filter hx)
    (List.mem_of_mem_filter hy) hk

/-! ### Per-kind log lemmas: a fault-free child sync issues exactly one
upsert per record whose namespace resolves, in order. -/

lemma syncDeploymentsGo_noFail (cid : String) (now : Nat) (nsIds : List (String × Nat)) :
    ∀ (ds : List Deployment) (rows : List DepRow) (log : List (Nat × Deployment)) (k : Nat),
    ∃ rows', syncDeploymentsGo noFail cid now nsIds ds rows log k =
      (rows', log ++ ds.filterMap (fun d => (alookup nsIds d.ns).map (fun nid => (nid, d))),
        true) := by
  intro ds
  induction ds with
  | nil => intro rows log k; exact ⟨rows, by simp [syncDeploymentsGo]⟩
  | cons d ds ih =>
    intro rows log k
    cases hres : alookup nsIds d.ns with
    | none =>
      obtain ⟨rows', heq⟩ := ih rows log k
      refine ⟨rows', ?_⟩
      simp only [syncDeploymentsGo, hres]
      rw [heq]
      simp [List.filterMap_cons, hres]
    | some nid =>
      obtain ⟨rows', heq⟩ := ih (upsertDep cid now nid d rows) (log ++ [(nid, d)]) (k + 1)
      refine ⟨rows', ?_⟩
      simp only [syncDeploymentsGo, hres, noFail, Bool.false_eq_true, if_false]
      rw [heq]
      simp [List.filterMap_cons, hres, List.append_assoc]

lemma syncStatefulsetsGo_noFail (cid : String) (now : Nat) (nsIds : List (String × Nat)) :
    ∀ (ss : List StatefulSetIn) (rows : List StsRow) (log : List (Nat × StatefulSetIn)) (k : Nat),
    ∃ rows', syncStatefulsetsGo noFail cid now nsIds ss rows log k =
      (rows', log ++ ss.filterMap (fun s => (alookup nsIds s.ns).map (fun nid => (nid, s))),
        true) := by
  intro ss
  induction ss with
  | nil => intro rows log k; exact ⟨rows, by simp [syncStatefulsetsGo]⟩
  | cons s ss ih =>
    intro rows log k
    cases hres : alookup nsIds s.ns with
    | none =>
      obtain ⟨rows', heq⟩ := ih rows log k
      refine ⟨rows', ?_⟩
      simp only [syncStatefulsetsGo, hres]
      rw [heq]
      simp [List.filterMap_cons, hres]
    | some nid =>
      obtain ⟨rows', heq⟩ := ih (upsertSts cid now nid s rows) (log ++ [(nid, s)]) (k + 1)
      refine ⟨rows', ?_⟩
      simp only [syncStatefulsetsGo, hres, noFail, Bool.false_eq_true, if_false]
      rw [heq]
      simp [List.filterMap_cons, hres, List.append_assoc]

lemma syncDaemonsetsGo_noFail (cid : String) (now : Nat) (nsIds : List (String × Nat)) :
    ∀ (ds : List DaemonSetIn) (rows : List DsRow) (log : List (Nat × DaemonSetIn)) (k : Nat),
    ∃ rows', syncDaemonsetsGo noFail cid now nsIds ds rows log k =
      (rows', log ++ ds.filterMap (fun d => (alookup nsIds d.ns).map (fun nid => (nid, d))),
        true) := by
  intro ds
  induction ds with
  | nil => intro rows log k; exact ⟨rows, by simp [syncDaemonsetsGo]⟩
  | cons d ds ih =>
    intro rows log k
    cases hres : alookup nsIds d.ns with
    | none =>
      obtain ⟨rows', heq⟩ := ih rows log k
      refine ⟨rows', ?_⟩
      simp only [syncDaemonsetsGo, hres]
      rw [heq]
      simp [List.filterMap_cons, hres]
    | some nid =>
      obtain ⟨rows', heq⟩ := ih (upsertDs cid now nid d rows) (log ++ [(nid, d)]) (k + 1)
      refine ⟨rows', ?_⟩
      simp only [syncDaemonsetsGo, hres, noFail, Bool.false_eq_true, if_false]
      rw [heq]
      simp [List.filterMap_cons, hres, List.append_assoc]

lemma syncServicesGo_noFail (cid : String) (now : Nat) (nsIds : List (String × Nat)) :
    ∀ (ss : List ServiceIn) (rows : List SvcRow) (log : List (Nat × ServiceIn)) (k : Nat),
    ∃ rows', syncServicesGo noFail cid now nsIds ss rows log k =
      (rows', log ++ ss.filterMap (fun s => (alookup nsIds s.ns).map (fun nid => (nid, s))),
        true) := by
  intro ss
  induction ss with
  | nil => intro rows log k; exact ⟨rows, by simp [syncServicesGo]⟩
  | cons s ss ih =>
    intro rows log k
    cases hres : alookup nsIds s.ns with
    | none =>
      obtain ⟨rows', heq⟩ := ih rows log k
      refine ⟨rows', ?_⟩
      simp only [syncServicesGo, hres]
      rw [heq]
      simp [List.filterMap_cons, hres]
    | some nid =>
      obtain ⟨rows', heq⟩ := ih (upsertSvc cid now nid s rows) (log ++ [(nid, s)]) (k + 1)
      refine ⟨rows', ?_⟩
      simp only [syncServicesGo, hres, noFail, Bool.false_eq_true, if_false]
      rw [heq]
      simp [List.filterMap_cons, hres, List.append_assoc]

lemma syncIngressesGo_noFail (cid : String) (now : Nat) (nsIds : List (String × Nat)) :
    ∀ (gs : List IngressIn) (rows : List IngRow) (log : List (Nat × IngressIn)) (k : Nat),
    ∃ rows', syncIngressesGo noFail cid now nsIds gs rows log k =
      (rows', log ++ gs.filterMap (fun g => (alookup nsIds g.ns).map (fun nid => (nid, g))),
        true) := by
  intro gs
  induction gs with
  | nil => intro rows log k; exact ⟨rows, by simp [syncIngressesGo]⟩
  | cons g gs ih =>
    intro rows log k
    cases hres : alookup nsIds g.ns with
    | none =>
      obtain ⟨rows', heq⟩ := ih rows log k
      refine ⟨rows', ?_⟩
      simp only [syncIngressesGo, hres]
      rw [heq]
      simp [List.filterMap_cons, hres]
    | some nid =>
      obtain ⟨rows', heq⟩ := ih (upsertIng cid now nid g rows) (log ++ [(nid, g)]) (k + 1)
      refine ⟨rows', ?_⟩
      simp only [syncIngressesGo, hres, noFail, Bool.false_eq_true, if_false]
      rw [heq]
      simp [List.filterMap_cons, hres, List.append_assoc]

lemma syncJobsGo_noFail (cid : String) (now : Nat) (nsIds : List (String × Nat)) :
    ∀ (js : List JobIn) (rows : List JobRow) (log : List (Nat × JobIn)) (k : Nat),
    ∃ rows', syncJobsGo noFail cid now nsIds js rows log k =
      (rows', log ++ js.filterMap (fun j => (alookup nsIds j.ns).map (fun nid => (nid, j))),
        true) := by
  intro js
  induction js with
  | nil => intro rows log k; exact ⟨rows, by simp [syncJobsGo]⟩
  | cons j js ih =>
    intro rows log k
    cases hres : alookup nsIds j.ns with
    | none =>
      obtain ⟨rows', heq⟩ := ih rows log k
      refine ⟨rows', ?_⟩
      simp only [syncJobsGo, hres]
      rw [heq]
      simp [List.filterMap_cons, hres]
    | some nid =>
      obtain ⟨rows', heq⟩ := ih (upsertJob cid now nid j rows) (log ++ [(nid, j)]) (k + 1)
      refine ⟨rows', ?_⟩
      simp only [syncJobsGo, hres, noFail, Bool.false_eq_true, if_false]
      rw [heq]
      simp [List.filterMap_cons, hres, List.append_assoc]

/-! ### Lemmas for the event forwarder and the cycle. -/

lemma watchEventsSink_supabase (cid : String) (now : Nat) :
    ∀ (events : List K8sEvent) (tbl : List EventRecord),
    watchEventsSink SyncMode.supabase true cid now events tbl =
      tbl ++ events.map (mkEventRecord cid now) := by
  intro events
  induction events with
  | nil => intro tbl; simp [watchEventsSink]
  | cons e rest ih =>
    intro tbl
    show watchEventsSink SyncMode.supabase true cid now rest
      (addEvent false true cid now e tbl).1 = _
    rw [ih]
    simp [addEvent, List.append_assoc]

lemma watchEventsSink_api (cid : String) (now : Nat) :
    ∀ (events : List K8sEvent) (tbl : List EventRecord),
    watchEventsSink SyncMode.api true cid now events tbl = tbl := by
  intro events
  induction events with
  | nil => intro tbl; rfl
  | cons e rest ih =>
    intro tbl
    show watchEventsSink SyncMode.api true cid now rest tbl = tbl
    exact ih tbl

lemma tickSb_statusWrites (cid : String) (now : Nat) (c : Collections) (st : SupabaseState) :
    (tickSb noFailTick true cid now c st).statusWrites =
      st.statusWrites ++ [StatusVal.connected] := by
  simp [tickSb, updateClusterStatus, noFailTick, noFail]

lemma setDisconnectedSb_writes (st : SupabaseState) :
    (setDisconnectedSb false true st).1.statusWrites =
      st.statusWrites ++ [StatusVal.disconnected] ∧
    (setDisconnectedSb false true st).2 = true := by
  simp [setDisconnectedSb]

/-! ### Claim theorems. -/

/-- Claim C1: for the deletion-aware pods kind, if every collected pod's
namespace resolves, no sink operation errors and no concurrent mutation
occurs (the sink is only mutated by this run), then after sync_pods
returns the sink's (namespace_id, name) key set for this cluster is
exactly the key set of the collected pods. -/
theorem sync_pods_exact_keyset (cid : String) (now : Nat) (pods : List Pod)
    (nsIds : List (String × Nat)) (t : PodsTable) (hwf : PodsWf t)
    (hres : ∀ p ∈ pods, (alookup nsIds p.ns).isSome) :
    (syncPods noFail true cid now pods nsIds t).ok = true ∧
    ∀ i n, ((i, n) ∈ keysFor cid (syncPods noFail true cid now pods nsIds t).table ↔
      ∃ p ∈ pods, alookup nsIds p.ns = some i ∧ p.name = n) := by
  refine ⟨syncPods_ok cid now pods nsIds t, ?_⟩
  intro i n
  rw [syncPods_keysFor cid now pods nsIds t hwf (i, n)]
  simp only [currentKeys, List.mem_filterMap, resolveKey, Option.map_eq_some']
  constructor
  · rintro ⟨p, hp, nid, hl, hkn⟩
    have h1 : nid = i := congrArg Prod.fst hkn
    have h2 : p.name = n := congrArg Prod.snd hkn
    exact ⟨p, hp, h1 ▸ hl, h2⟩
  · rintro ⟨p, hp, hl, hn⟩
    exact ⟨p, hp, i, hl, by rw [hn]⟩

theorem sync_pods_exact_keyset_check :
    PodsWf cTEmpty ∧ (∀ p ∈ [cPod1], (alookup cNsIds p.ns).isSome) ∧
    ((syncPods noFail true "c" 0 [cPod1] cNsIds cTEmpty).ok = true ∧
      ∀ i n, ((i, n) ∈ keysFor "c" (syncPods noFail true "c" 0 [cPod1] cNsIds cTEmpty).table ↔
        ∃ p ∈ [cPod1], alookup cNsIds p.ns = some i ∧ p.name = n)) :=
  ⟨by decide, by decide,
    sync_pods_exact_keyset "c" 0 [cPod1] cNsIds cTEmpty (by decide) (by decide)⟩

/-- Claim C4: idempotence of the cycle for pods: re-running sync_pods on
the same collection and namespace mapping issues zero deletes, issues the
same upserts (keyed by the same primary keys with the same values), and
leaves the sink's pod record set unchanged modulo the updated_at
timestamp. -/
theorem sync_pods_idempotent (cid : String) (now1 now2 : Nat) (pods : List Pod)
    (nsIds : List (String × Nat)) (t : PodsTable) (hwf : PodsWf t) :
    (syncPods noFail true cid now1 pods nsIds t).ok = true ∧
    (syncPods noFail true cid now2 pods nsIds
      (syncPods noFail true cid now1 pods nsIds t).table).ok = true ∧
    (syncPods noFail true cid now2 pods nsIds
      (syncPods noFail true cid now1 pods nsIds t).table).deletes = [] ∧
    (syncPods noFail true cid now2 pods nsIds
      (syncPods noFail true cid now1 pods nsIds t).table).upserts =
      (syncPods noFail true cid now1 pods nsIds t).upserts ∧
    (syncPods noFail true cid now2 pods nsIds
      (syncPods noFail true cid now1 pods nsIds t).table).table.rows.map stripTime =
      (syncPods noFail true cid now1 pods nsIds t).table.rows.map stripTime ∧
    (syncPods noFail true cid now2 pods nsIds
      (syncPods noFail true cid now1 pods nsIds t).table).table.nextId =
      (syncPods noFail true cid now1 pods nsIds t).table.nextId := by
  obtain ⟨h1, h2, h3, h4⟩ := syncPods_idem cid now1 now2 pods nsIds t hwf
  exact ⟨syncPods_ok cid now1 pods nsIds t, syncPods_ok cid now2 pods nsIds _,
    h1, h2, h3, h4⟩

theorem sync_pods_idempotent_check :
    PodsWf cTEmpty ∧
    ((syncPods noFail true "c" 1 [cPod1] cNsIds cTEmpty).ok = true ∧
      (syncPods noFail true "c" 2 [cPod1] cNsIds
        (syncPods noFail true "c" 1 [cPod1] cNsIds cTEmpty).table).ok = true ∧
      (syncPods noFail true "c" 2 [cPod1] cNsIds
        (syncPods noFail true "c" 1 [cPod1] cNsIds cTEmpty).table).deletes = [] ∧
      (syncPods noFail true "c" 2 [cPod1] cNsIds
        (syncPods noFail true "c" 1 [cPod1] cNsIds cTEmpty).table).upserts =
        (syncPods noFail true "c" 1 [cPod1] cNsIds cTEmpty).upserts ∧
      (syncPods noFail true "c" 2 [cPod1] cNsIds
        (syncPods noFail true "c" 1 [cPod1] cNsIds cTEmpty).table).table.rows.map stripTime =
        (syncPods noFail true "c" 1 [cPod1] cNsIds cTEmpty).table.rows.map stripTime ∧
      (syncPods noFail true "c" 2 [cPod1] cNsIds
        (syncPods noFail true "c" 1 [cPod1] cNsIds cTEmpty).table).table.nextId =
        (syncPods noFail true "c" 1 [cPod1] cNsIds cTEmpty).table.nextId) :=
  ⟨by decide, sync_pods_idempotent "c" 1 2 [cPod1] cNsIds cTEmpty (by decide)⟩

/-- Claim C10 (implicit): a collected pod whose namespace does not resolve
is excluded from the current key set, so an existing sink record carrying
that pod's key (and not produced by any other collected pod) is deleted in
the same fault-free cycle: skipping a child is not a no-op on sink state. -/
theorem skipped_pod_existing_row_deleted (cid : String) (now : Nat) (pods : List Pod)
    (nsIds : List (String × Nat)) (t : PodsTable) (p : Pod) (r : PodRow)
    (hwf : PodsWf t) (hp : p ∈ pods) (hun : alookup nsIds p.ns = none)
    (hr : r ∈ t.rows) (hcl : r.cluster_id = cid) (hname : r.name = p.name)
    (hnc : podKey r ∉ currentKeys nsIds pods) :
    (syncPods noFail true cid now pods nsIds t).ok = true ∧
    podKey r ∉ keysFor cid (syncPods noFail true cid now pods nsIds t).table := by
  refine ⟨syncPods_ok cid now pods nsIds t, ?_⟩
  intro hmem
  exact hnc ((syncPods_keysFor cid now pods nsIds t hwf (podKey r)).1 hmem)

theorem skipped_pod_existing_row_deleted_check :
    PodsWf cTPx ∧ cPodX ∈ [cPodX] ∧ alookup cNsIds cPodX.ns = none ∧
    cRowPx ∈ cTPx.rows ∧ cRowPx.cluster_id = "c" ∧ cRowPx.name = cPodX.name ∧
    podKey cRowPx ∉ currentKeys cNsIds [cPodX] ∧
    ((syncPods noFail true "c" 0 [cPodX] cNsIds cTPx).ok = true ∧
      podKey cRowPx ∉ keysFor "c" (syncPods noFail true "c" 0 [cPodX] cNsIds cTPx).table) :=
  ⟨by decide, by decide, by decide, by decide, by decide, by decide, by decide,
    skipped_pod_existing_row_deleted "c" 0 [cPodX] cNsIds cTPx cPodX cRowPx
      (by decide) (by decide) (by decide) (by decide) (by decide) (by decide) (by decide)⟩

/-- Claim C2 (code bug evidence): after the pod listing raises
ApiException, get_pods_raw returns the empty list; sync_pods then treats
it as a legitimately empty collection, runs the deletion branch and wipes
every existing pod row of the cluster, instead of leaving the sink's pod
key set unchanged. -/
theorem partial_listing_wipes_pod_rows :
    getPodsRaw true ListResult.apiError = [] ∧
    keysFor "c" cT0 = [(1, "p1")] ∧
    (syncPods noFail true "c" 5 (getPodsRaw true ListResult.apiError) cNsIds cT0).table.rows
      = [] ∧
    (syncPods noFail true "c" 5 (getPodsRaw true ListResult.apiError) cNsIds cT0).deletes
      = [0] ∧
    (syncPods noFail true "c" 5 (getPodsRaw true ListResult.apiError) cNsIds cT0).ok
      = true := by decide

/-- Claim C3 (counterexample): the try block of sync_pods wraps the whole
loop, so when the upsert of the first record raises, the second record's
upsert is never attempted, the deletion pass never runs (a stale row stays
undeleted), and the function returns False — whereas the fault-free run on
the same input issues both upserts and one delete. -/
theorem one_upsert_failure_aborts_kind :
    (syncPods (fun n => n == 1) true "c" 5 [cPod1, cPod2] cNsIds cTStale).upserts = [] ∧
    (syncPods (fun n => n == 1) true "c" 5 [cPod1, cPod2] cNsIds cTStale).deletes = [] ∧
    (syncPods (fun n => n == 1) true "c" 5 [cPod1, cPod2] cNsIds cTStale).table = cTStale ∧
    (syncPods (fun n => n == 1) true "c" 5 [cPod1, cPod2] cNsIds cTStale).ok = false ∧
    (syncPods noFail true "c" 5 [cPod1, cPod2] cNsIds cTStale).upserts =
      [(1, cPod1), (1, cPod2)] ∧
    (syncPods noFail true "c" 5 [cPod1, cPod2] cNsIds cTStale).deletes = [0] := by decide

/-- Claim C3 (amended): failures are caught at per-kind granularity, not
per record: a raising upsert aborts that kind for the cycle (remaining
upserts and the deletion pass are skipped, the sync returns False without
raising), while the sync calls of every other kind in the same cycle are
unaffected by the failing kind's oracle. -/
theorem kind_failure_isolated_cycle :
    (∀ (cid : String) (now : Nat) (p : Pod) (ps : List Pod) (nsIds : List (String × Nat))
      (t : PodsTable) (nid : Nat), alookup nsIds p.ns = some nid →
      syncPods (fun n => n == 1) true cid now (p :: ps) nsIds t = ⟨t, [], [], false⟩) ∧
    (∀ (os : TickOracles) (o o' : Nat → Bool) (connected : Bool) (cid : String) (now : Nat)
      (c : Collections) (st : SupabaseState),
      (tickSb { os with pods := o } connected cid now c st).deployments =
        (tickSb { os with pods := o' } connected cid now c st).deployments ∧
      (tickSb { os with pods := o } connected cid now c st).statefulsets =
        (tickSb { os with pods := o' } connected cid now c st).statefulsets ∧
      (tickSb { os with pods := o } connected cid now c st).daemonsets =
        (tickSb { os with pods := o' } connected cid now c st).daemonsets ∧
      (tickSb { os with pods := o } connected cid now c st).services =
        (tickSb { os with pods := o' } connected cid now c st).services ∧
      (tickSb { os with pods := o } connected cid now c st).ingresses =
        (tickSb { os with pods := o' } connected cid now c st).ingresses ∧
      (tickSb { os with pods := o } connected cid now c st).jobs =
        (tickSb { os with pods := o' } connected cid now c st).jobs) := by
  constructor
  · intro cid now p ps nsIds t nid h
    simp [syncPods, syncPodsGo_cons, h]
  · intro os o o' connected cid now c st
    refine ⟨?_, ?_, ?_, ?_, ?_, ?_⟩ <;> rfl

theorem kind_failure_isolated_cycle_check :
    alookup cNsIds cPod1.ns = some 1 ∧
    syncPods (fun n => n == 1) true "c" 0 [cPod1] cNsIds cTStale =
      ⟨cTStale, [], [], false⟩ :=
  ⟨by decide, kind_failure_isolated_cycle.1 "c" 0 cPod1 [] cNsIds cTStale 1 (by decide)⟩

/-- Claim C5: dependency gating: in each child kind (pods, deployments,
statefulsets, daemonsets, services, ingresses, jobs), a collected record
whose namespace name is absent from namespace_ids is never upserted to the
sink, and the skip raises no error — the fault-free sync still returns
True. -/
theorem unresolved_namespace_child_skipped (cid : String) (now : Nat)
    (nsIds : List (String × Nat)) :
    (∀ (pods : List Pod) (t : PodsTable) (p : Pod), p ∈ pods → alookup nsIds p.ns = none →
      (∀ e ∈ (syncPods noFail true cid now pods nsIds t).upserts, e.2 ≠ p) ∧
      (syncPods noFail true cid now pods nsIds t).ok = true) ∧
    (∀ (ds : List Deployment) (rows : List DepRow) (d : Deployment), d ∈ ds →
      alookup nsIds d.ns = none →
      (∀ e ∈ (syncDeployments noFail true cid now ds nsIds rows).2.1, e.2 ≠ d) ∧
      (syncDeployments noFail true cid now ds nsIds rows).2.2 = true) ∧
    (∀ (ss : List StatefulSetIn) (rows : List StsRow) (s : StatefulSetIn), s ∈ ss →
      alookup nsIds s.ns = none →
      (∀ e ∈ (syncStatefulsets noFail true cid now ss nsIds rows).2.1, e.2 ≠ s) ∧
      (syncStatefulsets noFail true cid now ss nsIds rows).2.2 = true) ∧
    (∀ (ds : List DaemonSetIn) (rows : List DsRow) (d : DaemonSetIn), d ∈ ds →
      alookup nsIds d.ns = none →
      (∀ e ∈ (syncDaemonsets noFail true cid now ds nsIds rows).2.1, e.2 ≠ d) ∧
      (syncDaemonsets noFail true cid now ds nsIds rows).2.2 = true) ∧
    (∀ (ss : List ServiceIn) (rows : List SvcRow) (s : ServiceIn), s ∈ ss →
      alookup nsIds s.ns = none →
      (∀ e ∈ (syncServices noFail true cid now ss nsIds rows).2.1, e.2 ≠ s) ∧
      (syncServices noFail true cid now ss nsIds rows).2.2 = true) ∧
    (∀ (gs : List IngressIn) (rows : List IngRow) (g : IngressIn), g ∈ gs →
      alookup nsIds g.ns = none →
      (∀ e ∈ (syncIngresses noFail true cid now gs nsIds rows).2.1, e.2 ≠ g) ∧
      (syncIngresses noFail true cid now gs nsIds rows).2.2 = true) ∧
    (∀ (js : List JobIn) (rows : List JobRow) (j : JobIn), j ∈ js →
      alookup nsIds j.ns = none →
      (∀ e ∈ (syncJobs noFail true cid now js nsIds rows).2.1, e.2 ≠ j) ∧
      (syncJobs noFail true cid now js nsIds rows).2.2 = true) := by
  refine ⟨?_, ?_, ?_, ?_, ?_, ?_, ?_⟩
  · intro pods t p _ hun
    rw [syncPods_noFail_eq]
    refine ⟨?_, rfl⟩
    intro e he hep
    simp only [currentPairs, List.mem_filterMap, Option.map_eq_some'] at he
    obtain ⟨q, _, nid, hq, hqe⟩ := he
    rw [← hqe] at hep
    simp only at hep
    rw [hep] at hq
    rw [hun] at hq
    cases hq
  · intro ds rows d _ hun
    obtain ⟨rows', heq⟩ := syncDeploymentsGo_noFail cid now nsIds ds rows [] 0
    show (∀ e ∈ (syncDeploymentsGo noFail cid now nsIds ds rows [] 0).2.1, e.2 ≠ d) ∧
      (syncDeploymentsGo noFail cid now nsIds ds rows [] 0).2.2 = true
    rw [heq]
    refine ⟨?_, rfl⟩
    intro e he hep
    simp only [List.nil_append, List.mem_filterMap, Option.map_eq_some'] at he
    obtain ⟨q, _, nid, hq, hqe⟩ := he
    rw [← hqe] at hep
    simp only at hep
    rw [hep] at hq
    rw [hun] at hq
    cases hq
  · intro ss rows s _ hun
    obtain ⟨rows', heq⟩ := syncStatefulsetsGo_noFail cid now nsIds ss rows [] 0
    show (∀ e ∈ (syncStatefulsetsGo noFail cid now nsIds ss rows [] 0).2.1, e.2 ≠ s) ∧
      (syncStatefulsetsGo noFail cid now nsIds ss rows [] 0).2.2 = true
    rw [heq]
    refine ⟨?_, rfl⟩
    intro e he hep
    simp only [List.nil_append, List.mem_filterMap, Option.map_eq_some'] at he
    obtain ⟨q, _, nid, hq, hqe⟩ := he
    rw [← hqe] at hep
    simp only at hep
    rw [hep] at hq
    rw [hun] at hq
    cases hq
  · intro ds rows d _ hun
    obtain ⟨rows', heq⟩ := syncDaemonsetsGo_noFail cid now nsIds ds rows [] 0
    show (∀ e ∈ (syncDaemonsetsGo noFail cid now nsIds ds rows [] 0).2.1, e.2 ≠ d) ∧
      (syncDaemonsetsGo noFail cid now nsIds ds rows [] 0).2.2 = true
    rw [heq]
    refine ⟨?_, rfl⟩
    intro e he hep
    simp only [List.nil_append, List.mem_filterMap, Option.map_eq_some'] at he
    obtain ⟨q, _, nid, hq, hqe⟩ := he
    rw [← hqe] at hep
    simp only at hep
    rw [hep] at hq
    rw [hun] at hq
    cases hq
  · intro ss rows s _ hun
    obtain ⟨rows', heq⟩ := syncServicesGo_noFail cid now nsIds ss rows [] 0
    show (∀ e ∈ (syncServicesGo noFail cid now nsIds ss rows [] 0).2.1, e.2 ≠ s) ∧
      (syncServicesGo noFail cid now nsIds ss rows [] 0).2.2 = true
    rw [heq]
    refine ⟨?_, rfl⟩
    intro e he hep
    simp only [List.nil_append, List.mem_filterMap, Option.map_eq_some'] at he
    obtain ⟨q, _, nid, hq, hqe⟩ := he
    rw [← hqe] at hep
    simp only at hep
    rw [hep] at hq
    rw [hun] at hq
    cases hq
  · intro gs rows g _ hun
    obtain ⟨rows', heq⟩ := syncIngressesGo_noFail cid now nsIds gs rows [] 0
    show (∀ e ∈ (syncIngressesGo noFail cid now nsIds gs rows [] 0).2.1, e.2 ≠ g) ∧
      (syncIngressesGo noFail cid now nsIds gs rows [] 0).2.2 = true
    rw [heq]
    refine ⟨?_, rfl⟩
    intro e he hep
    simp only [List.nil_append, List.mem_filterMap, Option.map_eq_some'] at he
    obtain ⟨q, _, nid, hq, hqe⟩ := he
    rw [← hqe] at hep
    simp only at hep
    rw [hep] at hq
    rw [hun] at hq
    cases hq
  · intro js rows j _ hun
    obtain ⟨rows', heq⟩ := syncJobsGo_noFail cid now nsIds js rows [] 0
    show (∀ e ∈ (syncJobsGo noFail cid now nsIds js rows [] 0).2.1, e.2 ≠ j) ∧
      (syncJobsGo noFail cid now nsIds js rows [] 0).2.2 = true
    rw [heq]
    refine ⟨?_, rfl⟩
    intro e he hep
    simp only [List.nil_append, List.mem_filterMap, Option.map_eq_some'] at he
    obtain ⟨q, _, nid, hq, hqe⟩ := he
    rw [← hqe] at hep
    simp only at hep
    rw [hep] at hq
    rw [hun] at hq
    cases hq

theorem unresolved_namespace_child_skipped_check :
    (cPodX ∈ [cPodX] ∧ alookup cNsIds cPodX.ns = none ∧
      ((∀ e ∈ (syncPods noFail true "c" 0 [cPodX] cNsIds cTEmpty).upserts, e.2 ≠ cPodX) ∧
        (syncPods noFail true "c" 0 [cPodX] cNsIds cTEmpty).ok = true)) ∧
    (cDep ∈ [cDep] ∧ alookup cNsIds cDep.ns = none ∧
      ((∀ e ∈ (syncDeployments noFail true "c" 0 [cDep] cNsIds []).2.1, e.2 ≠ cDep) ∧
        (syncDeployments noFail true "c" 0 [cDep] cNsIds []).2.2 = true)) ∧
    (cSts ∈ [cSts] ∧ alookup cNsIds cSts.ns = none ∧
      ((∀ e ∈ (syncStatefulsets noFail true "c" 0 [cSts] cNsIds []).2.1, e.2 ≠ cSts) ∧
        (syncStatefulsets noFail true "c" 0 [cSts] cNsIds []).2.2 = true)) ∧
    (cDs ∈ [cDs] ∧ alookup cNsIds cDs.ns = none ∧
      ((∀ e ∈ (syncDaemonsets noFail true "c" 0 [cDs] cNsIds []).2.1, e.2 ≠ cDs) ∧
        (syncDaemonsets noFail true "c" 0 [cDs] cNsIds []).2.2 = true)) ∧
    (cSvc ∈ [cSvc] ∧ alookup cNsIds cSvc.ns = none ∧
      ((∀ e ∈ (syncServices noFail true "c" 0 [cSvc] cNsIds []).2.1, e.2 ≠ cSvc) ∧
        (syncServices noFail true "c" 0 [cSvc] cNsIds []).2.2 = true)) ∧
    (cIng ∈ [cIng] ∧ alookup cNsIds cIng.ns = none ∧
      ((∀ e ∈ (syncIngresses noFail true "c" 0 [cIng] cNsIds []).2.1, e.2 ≠ cIng) ∧
        (syncIngresses noFail true "c" 0 [cIng] cNsIds []).2.2 = true)) ∧
    (cJob ∈ [cJob] ∧ alookup cNsIds cJob.ns = none ∧
      ((∀ e ∈ (syncJobs noFail true "c" 0 [cJob] cNsIds []).2.1, e.2 ≠ cJob) ∧
        (syncJobs noFail true "c" 0 [cJob] cNsIds []).2.2 = true)) :=
  ⟨⟨by decide, by decide,
      (unresolved_namespace_child_skipped "c" 0 cNsIds).1 [cPodX] cTEmpty cPodX
        (by decide) (by decide)⟩,
    ⟨by decide, by decide,
      (unresolved_namespace_child_skipped "c" 0 cNsIds).2.1 [cDep] [] cDep
        (by decide) (by decide)⟩,
    ⟨by decide, by decide,
      (unresolved_namespace_child_skipped "c" 0 cNsIds).2.2.1 [cSts] [] cSts
        (by decide) (by decide)⟩,
    ⟨by decide, by decide,
      (unresolved_namespace_child_skipped "c" 0 cNsIds).2.2.2.1 [cDs] [] cDs
        (by decide) (by decide)⟩,
    ⟨by decide, by decide,
      (unresolved_namespace_child_skipped "c" 0 cNsIds).2.2.2.2.1 [cSvc] [] cSvc
        (by decide) (by decide)⟩,
    ⟨by decide, by decide,
      (unresolved_namespace_child_skipped "c" 0 cNsIds).2.2.2.2.2.1 [cIng] [] cIng
        (by decide) (by decide)⟩,
    ⟨by decide, by decide,
      (unresolved_namespace_child_skipped "c" 0 cNsIds).2.2.2.2.2.2 [cJob] [] cJob
        (by decide) (by decide)⟩⟩

/-- Claim C6: the namespace resolver never raises to its caller: when the
sink raises at any operation (upsert j, or the final re-read at j = n),
sync_namespaces returns exactly the table and partial mapping built by the
successful prefix of upserts; and on the fault-free path, after its
upserts it re-reads the full mapping of the cluster, so the returned
mapping sends every namespace row of the cluster — including rows created
by other actors and never passed in — to its id. -/
theorem sync_namespaces_resilient (cid : String) (now : Nat) :
    (∀ (nss : List NsInput) (t : NsTable) (j : Nat), j ≤ nss.length →
      syncNamespaces (failAt j) true cid now nss t =
        nsUpsertPhase cid now (nss.take j) t []) ∧
    (∀ (nss : List NsInput) (t : NsTable), NsWf t →
      ∀ r ∈ (syncNamespaces nsOk true cid now nss t).1.rows, r.cluster_id = cid →
        alookup (syncNamespaces nsOk true cid now nss t).2 r.name = some r.id) := by
  constructor
  · intro nss t j hj
    show syncNamespacesGo (failAt j) cid now nss t [] 0 = _
    have h := syncNamespacesGo_failAt cid now nss t [] 0 j hj
    rw [Nat.zero_add] at h
    exact h
  · intro nss t hwf r hr hcl
    have hgo := syncNamespacesGo_ok cid now nss t [] 0
    have h1 : (syncNamespaces nsOk true cid now nss t).1 = (nsUpsertPhase cid now nss t []).1 := by
      show (syncNamespacesGo nsOk cid now nss t [] 0).1 = _
      rw [hgo]
    have h2 : (syncNamespaces nsOk true cid now nss t).2 =
        ((nsUpsertPhase cid now nss t []).1.rows.filter
          (fun r => r.cluster_id == cid)).foldl
            (fun m r => assocSet m r.name r.id) (nsUpsertPhase cid now nss t []).2 := by
      show (syncNamespacesGo nsOk cid now nss t [] 0).2 = _
      rw [hgo]
    rw [h1] at hr
    rw [h2]
    have hwf' : NsWf (nsUpsertPhase cid now nss t []).1 := nsUpsertPhase_wf cid now nss t [] hwf
    exact alookup_foldl_mem _ _ (ns_filtered_names_nodup cid _ hwf') r
      (List.mem_filter.2 ⟨hr, by simp [hcl]⟩)

theorem sync_namespaces_resilient_check :
    (1 ≤ ([cNs1] : List NsInput).length ∧
      syncNamespaces (failAt 1) true "c" 0 [cNs1] cNsT =
        nsUpsertPhase "c" 0 ([cNs1].take 1) cNsT []) ∧
    (NsWf cNsT ∧
      (⟨7, "c", "other", "Active", 0⟩ : NsRow) ∈
        (syncNamespaces nsOk true "c" 0 [cNs1] cNsT).1.rows ∧
      (⟨7, "c", "other", "Active", 0⟩ : NsRow).cluster_id = "c" ∧
      alookup (syncNamespaces nsOk true "c" 0 [cNs1] cNsT).2 "other" = some 7) := by
  constructor
  · exact ⟨by decide, (sync_namespaces_resilient "c" 0).1 [cNs1] cNsT 1 (by decide)⟩
  · refine ⟨by decide, by decide, by decide, ?_⟩
    exact (sync_namespaces_resilient "c" 0).2 [cNs1] cNsT (by decide)
      ⟨7, "c", "other", "Active", 0⟩ (by decide) (by decide)

/-- Claim C7 (counterexample): sync_snapshot reports failure for the 2xx
status 204, so success is not the whole 2xx class. -/
theorem snapshot_2xx_not_success :
    syncSnapshot true true (HttpResp.status 204) = false ∧ 200 ≤ 204 ∧ 204 < 300 := by
  decide

/-- Claim C7 (amended): sync_snapshot reports success exactly when the
response status code is 200; every other status — 2xx or not — and every
caught exception yields failure. -/
theorem snapshot_success_iff_200 :
    (∀ code : Nat, syncSnapshot true true (HttpResp.status code) = true ↔ code = 200) ∧
    syncSnapshot true true HttpResp.timeoutExc = false ∧
    syncSnapshot true true HttpResp.otherExc = false := by
  refine ⟨?_, rfl, rfl⟩
  intro code
  simp [syncSnapshot]

/-- Claim C9 (counterexample): in the api variant, a received event is not
forwarded to the sink: the event table stays empty instead of receiving
the mapped record. -/
theorem api_mode_event_not_forwarded :
    watchEventsSink SyncMode.api true "c" 0 [cEvent] [] = [] ∧
    ([] : List EventRecord) ≠ [mkEventRecord "c" 0 cEvent] := by
  decide

/-- Claim C9 (amended): only the supabase (DirectStore) variant forwards
events: there each received event is mapped to an EventRecord and appended
by a keyless insert (duplicates preserved, no dedup); in the api variant
the loop performs no sink insert at all. -/
theorem event_forwarding_by_variant :
    (∀ (cid : String) (now : Nat) (events : List K8sEvent) (tbl : List EventRecord),
      watchEventsSink SyncMode.supabase true cid now events tbl =
        tbl ++ events.map (mkEventRecord cid now)) ∧
    (∀ (cid : String) (now : Nat) (events : List K8sEvent) (tbl : List EventRecord),
      watchEventsSink SyncMode.api true cid now events tbl = tbl) :=
  ⟨fun cid now events tbl => watchEventsSink_supabase cid now events tbl,
    fun cid now events tbl => watchEventsSink_api cid now events tbl⟩

/-- Claim C8 (counterexample): in the RemoteSnapshot (api) variant the
shutdown path performs zero disconnected-status writes — its
set_disconnected issues no sink operation — so "exactly one write in both
variants" fails. -/
theorem api_shutdown_writes_no_disconnect :
    lifespanShutdownWrites SyncMode.api true false emptyState = [] ∧
    countDisc (lifespanShutdownWrites SyncMode.api true false emptyState) ≠ 1 := by
  decide

/-- Claim C8 (amended): in the DirectStore (supabase) variant the
fault-free shutdown path appends exactly one disconnected-status write and
set_disconnected returns True; the api variant's shutdown appends none;
and the only other status-writing path, the cycle, appends exactly one
connected-status write — so no path but the DirectStore shutdown ever
writes disconnected. -/
theorem disconnect_write_shutdown_only :
    (∀ st : SupabaseState, lifespanShutdownWrites SyncMode.supabase true false st =
      st.statusWrites ++ [StatusVal.disconnected] ∧
      (setDisconnectedSb false true st).2 = true) ∧
    (∀ st : SupabaseState, lifespanShutdownWrites SyncMode.api true false st =
      st.statusWrites) ∧
    (∀ (cid : String) (now : Nat) (c : Collections) (st : SupabaseState),
      (tickSb noFailTick true cid now c st).statusWrites =
        st.statusWrites ++ [StatusVal.connected]) := by
  refine ⟨?_, ?_, ?_⟩
  · intro st
    exact ⟨(setDisconnectedSb_writes st).1, (setDisconnectedSb_writes st).2⟩
  · intro st
    rfl
  · intro cid now c st
    exact tickSb_statusWrites cid now c st
